import Mathlib

/-!
A shallow embedding of the order-execution core of `src/bot.py`
(`TradingEngine`) together with the webhook-facing result behaviour.

The exchange (ccxt) is modelled as an oracle `Nat → Except GErr ℚ` giving the
outcome of the n-th gateway call (balance fetch, ticker fetch, order
submission).  The engine is a state-and-exception monad over `St`, which
carries the position record (`current_position` in the source), the oracle
counter, and an event trace recording every gateway call, every assignment to
the position record, every sizing rejection and every invocation of the
emergency closer.  Python exceptions are modelled by `Except PyExc`; the
`backoff.on_exception(expo, ccxt.NetworkError, max_tries = n)` decorator is
modelled by `withRetry · (n - 1)`, which re-runs the wrapped action on a
network error, for `n` tries in total.
-/

namespace Tradingbot

/-- Order side, the `'buy' | 'sell'` strings of the source. -/
inductive Side : Type
  | buy
  | sell
deriving DecidableEq, Repr

/-- Gateway (ccxt) error classes relevant to the engine:
`ccxt.NetworkError`, `ccxt.InsufficientFunds`, any other `ccxt.BaseError`. -/
inductive GErr : Type
  | network
  | insufficientFunds
  | exchange
deriving DecidableEq, Repr

/-- Python exceptions flowing through the engine: the three gateway classes
plus the `ValueError` raised by `_calculate_position_size`. -/
inductive PyExc : Type
  | network
  | insufficientFunds
  | exchange
  | valueError
deriving DecidableEq, Repr

/-- Which engine call site submitted an order: the entry market order
(`process_signal` line 165), the flattening market order of
`_emergency_close`, or the protective OCO order of `_place_oco_order`. -/
inductive Ctx : Type
  | entry
  | flatten
  | oco
deriving DecidableEq, Repr

/-- Order type: `'market'` or `'STOP_LIMIT'`. -/
inductive OType : Type
  | market
  | stopLimit
deriving DecidableEq, Repr

/-- The argument record of `exchange.create_order`. -/
structure OrderReq : Type where
  side : Side
  otype : OType
  amount : ℚ
  price : Option ℚ
  stopPrice : Option ℚ
deriving DecidableEq, Repr

instance {ε α : Type} [DecidableEq ε] [DecidableEq α] : DecidableEq (Except ε α) := fun a b =>
  match a, b with
  | Except.ok x, Except.ok y =>
    if h : x = y then isTrue (by rw [h]) else isFalse (by intro hc; cases hc; exact h rfl)
  | Except.ok _, Except.error _ => isFalse (by intro hc; cases hc)
  | Except.error _, Except.ok _ => isFalse (by intro hc; cases hc)
  | Except.error x, Except.error y =>
    if h : x = y then isTrue (by rw [h]) else isFalse (by intro hc; cases hc; exact h rfl)

/-- Observable engine events: gateway calls with their outcomes, assignments
to `current_position`, the sizing rejection of `_calculate_position_size`,
and entry into `_emergency_close`. -/
inductive Event : Type
  | callBalance (out : Except GErr ℚ)
  | callTicker (out : Except GErr ℚ)
  | callOrder (ctx : Ctx) (req : OrderReq) (out : Except GErr ℚ)
  | setPosition (old new : Option Side)
  | sizeReject (amount minAmount : ℚ)
  | closeStart
deriving DecidableEq, Repr

/-- Engine state: `current_position`, the oracle counter (how many gateway
calls have been made), and the event trace. -/
structure St : Type where
  pos : Option Side
  ctr : Nat
  trace : List Event
deriving DecidableEq, Repr

/-- The exchange oracle: outcome of the n-th gateway call. -/
abbrev Oracle : Type := Nat → Except GErr ℚ

/-- Engine computations: state in, state plus normal return or raised
exception out. -/
abbrev M (α : Type) : Type := St → St × Except PyExc α

def Mpure {α : Type} (a : α) : M α := fun s => (s, Except.ok a)

def Mraise {α : Type} (e : PyExc) : M α := fun s => (s, Except.error e)

def Mbind {α β : Type} (m : M α) (f : α → M β) : M β := fun s =>
  match m s with
  | (s', Except.ok a) => f a s'
  | (s', Except.error e) => (s', Except.error e)

/-- Python `try … except` with a handler receiving the exception. -/
def Mcatch {α : Type} (m : M α) (h : PyExc → M α) : M α := fun s =>
  match m s with
  | (s', Except.error e) => h e s'
  | r => r

/-- `backoff.on_exception(expo, ccxt.NetworkError, max_tries = n+1)`:
re-run the wrapped action on a raised `NetworkError`, `n+1` tries in all. -/
def withRetry {α : Type} (m : M α) : Nat → M α
  | 0 => m
  | Nat.succ n => fun s =>
    match m s with
    | (s', Except.error PyExc.network) => withRetry m n s'
    | r => r

def toPyExc : GErr → PyExc
  | GErr.network => PyExc.network
  | GErr.insufficientFunds => PyExc.insufficientFunds
  | GErr.exchange => PyExc.exchange

/-- A raw gateway call: consumes one oracle outcome, records the event,
returns the value or raises the mapped exception. -/
def gatewayCall (o : Oracle) (mk : Except GErr ℚ → Event) : M ℚ := fun s =>
  ({ s with ctr := s.ctr + 1, trace := s.trace ++ [mk (o s.ctr)] },
   match o s.ctr with
   | Except.ok v => Except.ok v
   | Except.error g => Except.error (toPyExc g))

/-- `self.exchange.fetch_balance()['free'][quote]`. -/
def fetch_balance (o : Oracle) : M ℚ := gatewayCall o Event.callBalance

/-- `self.exchange.fetch_ticker(self.symbol)`, read as its `last` price. -/
def fetch_ticker (o : Oracle) : M ℚ := gatewayCall o Event.callTicker

/-- `self.exchange.create_order(...)`, tagged with its call site. -/
def create_order (o : Oracle) (c : Ctx) (req : OrderReq) : M ℚ :=
  gatewayCall o (Event.callOrder c req)

/-- `self.current_position = p`: the only operation mutating the position
record; it logs the old and new value. -/
def setPos (p : Option Side) : M Unit := fun s =>
  ({ s with pos := p, trace := s.trace ++ [Event.setPosition s.pos p] }, Except.ok ())

/-- `_get_available_balance` (bot.py lines 74-79): fetch the free quote
balance, scale by the 0.1% fee buffer; 3 tries on network errors. -/
def get_available_balance (o : Oracle) : M ℚ :=
  withRetry (Mbind (fetch_balance o) (fun b => Mpure (b * (999/1000)))) 2

/-- `_get_current_price` (bot.py lines 52-56); 3 tries on network errors. -/
def get_current_price (o : Oracle) : M ℚ := withRetry (fetch_ticker o) 2

/-- The hard-coded 90% risk fraction (`balance * 0.9`, bot.py line 61). -/
def riskFraction : ℚ := 9/10

/-- The quantized amount of `_calculate_position_size` (bot.py lines 61-66):
`floor(((balance * 0.9) / price) / step) * step`. -/
def sizeAmount (balance price step : ℚ) : ℚ :=
  ((balance * riskFraction / price / step).floor : ℚ) * step

/-- The pure part of `_calculate_position_size` (bot.py lines 58-72): the
quantized amount and the risk-adjusted balance, or the `ValueError`
("Monto mínimo no alcanzado") when the amount is below the market minimum. -/
def calcSize (balance price step minAmount : ℚ) : Except PyExc (ℚ × ℚ) :=
  if sizeAmount balance price step < minAmount then Except.error PyExc.valueError
  else Except.ok (sizeAmount balance price step, balance * riskFraction)

/-- Market constraints used by the sizer (`market_info` fields). -/
structure MarketInfo : Type where
  amountStep : ℚ
  minAmount : ℚ
deriving DecidableEq, Repr

/-- `_calculate_position_size` (bot.py lines 58-72): fetch the available
balance, quantize, raise `ValueError` below the minimum (logged as a
`sizeReject` event). -/
def calculate_position_size (o : Oracle) (mi : MarketInfo) (price : ℚ) : M (ℚ × ℚ) := fun s =>
  match get_available_balance o s with
  | (s', Except.error e) => (s', Except.error e)
  | (s', Except.ok balance) =>
    match calcSize balance price mi.amountStep mi.minAmount with
    | Except.error e =>
      ({ s' with trace := s'.trace ++ [Event.sizeReject (sizeAmount balance price mi.amountStep) mi.minAmount] },
       Except.error e)
    | Except.ok ar => (s', Except.ok ar)

/-- The argument record of a plain market order. -/
def marketReq (side : Side) (amount : ℚ) : OrderReq :=
  { side := side, otype := OType.market, amount := amount,
    price := none, stopPrice := none }

/-- `_execute_market_order` (bot.py lines 81-89): a plain market order,
no retry decorator. -/
def execute_market_order (o : Oracle) (c : Ctx) (side : Side) (amount : ℚ) : M ℚ :=
  create_order o c (marketReq side amount)

/-- Take-profit factor `1.05` (bot.py line 94). -/
def tpFactor : ℚ := 21/20

/-- Stop-loss factor `0.90` (bot.py line 95). -/
def slFactor : ℚ := 9/10

/-- Body of `_emergency_close` (bot.py lines 116-135): no-op when flat;
otherwise fetch balance and price, flatten with a market order whose amount
is the raw balance (or balance/price for a short), and only then clear the
position record.  The `except ccxt.BaseError: raise` of the source merely
logs and re-raises, so it is the identity on outcomes. -/
def closeBody (o : Oracle) : M Unit := fun s =>
  match s.pos with
  | none => (s, Except.ok ())
  | some held =>
    (Mbind (get_available_balance o) (fun balance =>
     Mbind (get_current_price o) (fun price =>
     Mbind (execute_market_order o Ctx.flatten
              (if held = Side.buy then Side.sell else Side.buy)
              (if held = Side.sell then balance / price else balance)) (fun _ =>
     setPos none)))) s

/-- `_emergency_close` with its `max_tries = 5` network-retry decorator;
each invocation is logged with a `closeStart` event. -/
def emergency_close (o : Oracle) : M Unit := fun s =>
  withRetry (closeBody o) 4 { s with trace := s.trace ++ [Event.closeStart] }

/-- `_place_oco_order` (bot.py lines 91-113): submit the protective order —
side `'sell'` unconditionally — and on any failure run `_emergency_close`
and re-raise (an exception raised by the close itself replaces the
original, as in Python). -/
def ocoReq (amount entry_price : ℚ) : OrderReq :=
  { side := Side.sell, otype := OType.stopLimit, amount := amount,
    price := some (entry_price * tpFactor),
    stopPrice := some (entry_price * slFactor) }

def place_oco_order (o : Oracle) (amount entry_price : ℚ) : M ℚ := fun s =>
  match create_order o Ctx.oco (ocoReq amount entry_price) s with
  | (s', Except.ok v) => (s', Except.ok v)
  | (s', Except.error e) =>
    match emergency_close o s' with
    | (s'', Except.ok _) => (s'', Except.error e)
    | (s'', Except.error e2) => (s'', Except.error e2)

/-- The conflict check of `process_signal` (bot.py lines 145-147):
`if self.current_position and self.current_position != signal:
self._emergency_close()`. -/
def checkConflict (o : Oracle) (side : Side) : M Unit := fun s =>
  match s.pos with
  | some p => if p ≠ side then emergency_close o s else (s, Except.ok ())
  | none => (s, Except.ok ())

/-- The `try` body of `process_signal` (bot.py lines 143-172). -/
def psBody (o : Oracle) (mi : MarketInfo) (side : Side) : M Bool :=
  Mbind (checkConflict o side) (fun _ =>
  Mbind (get_current_price o) (fun price =>
  Mbind (calculate_position_size o mi price) (fun ar =>
  Mbind (execute_market_order o Ctx.entry side ar.1) (fun _ =>
  Mbind (setPos (some side)) (fun _ =>
  Mbind (place_oco_order o ar.1 price) (fun _ =>
  Mpure true))))))

/-- The `except` chain of `process_signal` (bot.py lines 174-185):
`InsufficientFunds` → `return False`; `NetworkError` → `raise`;
anything else → `self._emergency_close(); return False`, where an exception
raised by that close propagates out of the handler. -/
def psHandler (o : Oracle) (e : PyExc) : M Bool :=
  match e with
  | PyExc.insufficientFunds => Mpure false
  | PyExc.network => Mraise PyExc.network
  | _ => fun s =>
    match emergency_close o s with
    | (s', Except.ok _) => (s', Except.ok false)
    | (s', Except.error e2) => (s', Except.error e2)

/-- `process_signal` (bot.py lines 137-185): reject signals other than
`"buy"`/`"sell"` with a bare `False`, otherwise run the pipeline under the
exception handlers. -/
def process_signal (o : Oracle) (mi : MarketInfo) (signal : String) : M Bool := fun s =>
  if signal = "buy" then Mcatch (psBody o mi Side.buy) (psHandler o) s
  else if signal = "sell" then Mcatch (psBody o mi Side.sell) (psHandler o) s
  else (s, Except.ok false)

/-- The signal string corresponding to a side. -/
def sideSignal : Side → String
  | Side.buy => "buy"
  | Side.sell => "sell"

/-- Fresh engine state with a given held position. -/
def initSt (pos : Option Side) : St := { pos := pos, ctr := 0, trace := [] }

/-- A full `process_signal` run from a fresh state. -/
def runPS (o : Oracle) (mi : MarketInfo) (signal : String) (pos : Option Side) :
    St × Except PyExc Bool :=
  process_signal o mi signal (initSt pos)

/-- A full `_emergency_close` run from a fresh state. -/
def runEC (o : Oracle) (pos : Option Side) : St × Except PyExc Unit :=
  emergency_close o (initSt pos)

/-! ## Trace analysis -/

/-- Is this event a successful order submission? -/
def isOkOrder : Event → Bool
  | Event.callOrder _ _ (Except.ok _) => true
  | _ => false

/-- Is this event an assignment to the position record? -/
def isSet : Event → Bool
  | Event.setPosition _ _ => true
  | _ => false

/-- Is this event the entry order submission of `process_signal`? -/
def isEntry : Event → Bool
  | Event.callOrder Ctx.entry _ _ => true
  | _ => false

/-- Is this event an exchange (gateway) call? -/
def isGateway : Event → Bool
  | Event.callBalance _ => true
  | Event.callTicker _ => true
  | Event.callOrder _ _ _ => true
  | _ => false

/-- Is this event a sizing rejection? -/
def isSizeReject : Event → Bool
  | Event.sizeReject _ _ => true
  | _ => false

/-- `adjOK prev t = true` iff every assignment to the position record in `t`
is immediately preceded by a successful order submission (`prev` says whether
the event just before `t` was one). -/
def adjOK : Bool → List Event → Bool
  | _, [] => true
  | prev, e :: rest => (!isSet e || prev) && adjOK (isOkOrder e) rest

/-- Whether the last event of `t` is a successful order submission
(`b` if `t` is empty). -/
def endFlag : Bool → List Event → Bool
  | b, [] => b
  | _, e :: rest => endFlag (isOkOrder e) rest

/-- The position value an event leaves behind, given the value before it. -/
def stepPos (p : Option Side) : Event → Option Side
  | Event.setPosition _ q => q
  | _ => p

/-- The position record after replaying the assignments of a trace. -/
def posAfter : Option Side → List Event → Option Side
  | p, [] => p
  | p, e :: rest => posAfter (stepPos p e) rest

/-- One event of the no-entry-on-opposing-position check: an entry order may
only be submitted while the position is empty or already on the same side. -/
def entryStep (p : Option Side) : Event → Bool
  | Event.callOrder Ctx.entry req _ => p == none || p == some req.side
  | _ => true

/-- `entrySafeFrom p t`: replaying `t` from position `p`, every entry order
is submitted with no opposing position open. -/
def entrySafeFrom : Option Side → List Event → Bool
  | _, [] => true
  | p, e :: rest => entryStep p e && entrySafeFrom (stepPos p e) rest

theorem adjOK_append (t d : List Event) (b : Bool) :
    adjOK b (t ++ d) = (adjOK b t && adjOK (endFlag b t) d) := by
  induction t generalizing b with
  | nil => simp [adjOK, endFlag]
  | cons e rest ih => simp [adjOK, endFlag, ih, Bool.and_assoc]

theorem endFlag_append (t d : List Event) (b : Bool) :
    endFlag b (t ++ d) = endFlag (endFlag b t) d := by
  induction t generalizing b with
  | nil => simp [endFlag]
  | cons e rest ih => simp [endFlag, ih]

theorem posAfter_append (t d : List Event) (p : Option Side) :
    posAfter p (t ++ d) = posAfter (posAfter p t) d := by
  induction t generalizing p with
  | nil => simp [posAfter]
  | cons e rest ih => simp [posAfter, ih]

theorem entrySafeFrom_append (t d : List Event) (p : Option Side) :
    entrySafeFrom p (t ++ d) = (entrySafeFrom p t && entrySafeFrom (posAfter p t) d) := by
  induction t generalizing p with
  | nil => simp [entrySafeFrom, posAfter]
  | cons e rest ih => simp [entrySafeFrom, posAfter, ih, Bool.and_assoc]

/-- A trace whose own adjacency check passes does not start with an
assignment, so the flag before it is irrelevant. -/
theorem adjOK_anyFlag {d : List Event} (h : adjOK false d = true) (b : Bool) :
    adjOK b d = true := by
  cases d with
  | nil => simp [adjOK]
  | cons e rest =>
    simp only [adjOK, Bool.or_false, Bool.and_eq_true] at h
    simp [adjOK, h.1, h.2]

theorem posAfter_of_noSet {d : List Event} (h : d.all (fun e => !isSet e) = true)
    (p : Option Side) : posAfter p d = p := by
  induction d generalizing p with
  | nil => simp [posAfter]
  | cons e rest ih =>
    simp only [List.all_cons, Bool.and_eq_true] at h
    have he : stepPos p e = p := by
      cases e <;> simp_all [stepPos, isSet]
    rw [posAfter, he, ih h.2]

theorem entrySafeFrom_of_noEntry {d : List Event} (h : d.all (fun e => !isEntry e) = true)
    (p : Option Side) : entrySafeFrom p d = true := by
  induction d generalizing p with
  | nil => simp [entrySafeFrom]
  | cons e rest ih =>
    simp only [List.all_cons, Bool.and_eq_true] at h
    have he : entryStep p e = true := by
      cases e with
      | callOrder c req out => cases c <;> simp_all [entryStep, isEntry]
      | _ => simp [entryStep]
    simp [entrySafeFrom, he, ih h.2]

/-- If the adjacency check passes and no order in `d` succeeded, then `d`
contains no assignment to the position record. -/
theorem noSet_of_adjOK {d : List Event} (h : adjOK false d = true)
    (hno : d.all (fun e => !isOkOrder e) = true) :
    d.all (fun e => !isSet e) = true := by
  induction d with
  | nil => simp
  | cons e rest ih =>
    simp only [adjOK, Bool.or_false, Bool.and_eq_true] at h
    simp only [List.all_cons, Bool.and_eq_true] at hno
    have hflag : isOkOrder e = false := by simpa using hno.1
    rw [hflag] at h
    simp only [List.all_cons, Bool.and_eq_true]
    exact ⟨h.1, ih h.2 hno.2⟩

/-! ## Compositional operation specifications

`OpSpec P m` says: `m` only appends to the trace; the final position record
is the replay of the appended events over the initial one; every appended
assignment to the position record immediately follows a successful order
submission; and every appended event satisfies `P`. -/

def OpSpec {α : Type} (P : Event → Bool) (m : M α) : Prop :=
  ∀ s, ∃ d, (m s).1.trace = s.trace ++ d
        ∧ (m s).1.pos = posAfter s.pos d
        ∧ adjOK false d = true
        ∧ d.all P = true

theorem stepPos_of_noSet {e : Event} (h : isSet e = false) (p : Option Side) :
    stepPos p e = p := by
  cases e <;> simp_all [stepPos, isSet]

theorem opSpec_pure {α : Type} (P : Event → Bool) (a : α) : OpSpec P (Mpure a) :=
  fun s => ⟨[], by simp [Mpure, posAfter, adjOK]⟩

theorem opSpec_raise {α : Type} (P : Event → Bool) (e : PyExc) :
    OpSpec (α := α) P (Mraise e) :=
  fun s => ⟨[], by simp [Mraise, posAfter, adjOK]⟩

theorem opSpec_bind {α β : Type} {P : Event → Bool} {m : M α} {f : α → M β}
    (hm : OpSpec P m) (hf : ∀ a, OpSpec P (f a)) : OpSpec P (Mbind m f) := by
  intro s
  obtain ⟨d1, ht1, hp1, ha1, hall1⟩ := hm s
  rcases hms : m s with ⟨s', r⟩
  replace ht1 : s'.trace = s.trace ++ d1 := by rw [hms] at ht1; exact ht1
  replace hp1 : s'.pos = posAfter s.pos d1 := by rw [hms] at hp1; exact hp1
  cases r with
  | error e =>
    exact ⟨d1, by simp [Mbind, hms, ht1, hp1, ha1, hall1]⟩
  | ok a =>
    obtain ⟨d2, ht2, hp2, ha2, hall2⟩ := hf a s'
    refine ⟨d1 ++ d2, ?_, ?_, ?_, ?_⟩
    · simp [Mbind, hms, ht2, ht1]
    · simp [Mbind, hms, hp2, hp1, posAfter_append]
    · rw [adjOK_append, ha1, adjOK_anyFlag ha2, Bool.and_self]
    · simp [List.all_append, hall1, hall2]

theorem opSpec_catch {α : Type} {P : Event → Bool} {m : M α} {h : PyExc → M α}
    (hm : OpSpec P m) (hh : ∀ e, OpSpec P (h e)) : OpSpec P (Mcatch m h) := by
  intro s
  obtain ⟨d1, ht1, hp1, ha1, hall1⟩ := hm s
  rcases hms : m s with ⟨s', r⟩
  replace ht1 : s'.trace = s.trace ++ d1 := by rw [hms] at ht1; exact ht1
  replace hp1 : s'.pos = posAfter s.pos d1 := by rw [hms] at hp1; exact hp1
  cases r with
  | ok a =>
    exact ⟨d1, by simp [Mcatch, hms, ht1, hp1, ha1, hall1]⟩
  | error e =>
    obtain ⟨d2, ht2, hp2, ha2, hall2⟩ := hh e s'
    refine ⟨d1 ++ d2, ?_, ?_, ?_, ?_⟩
    · simp [Mcatch, hms, ht2, ht1]
    · simp [Mcatch, hms, hp2, hp1, posAfter_append]
    · rw [adjOK_append, ha1, adjOK_anyFlag ha2, Bool.and_self]
    · simp [List.all_append, hall1, hall2]

theorem opSpec_withRetry {α : Type} {P : Event → Bool} {m : M α}
    (hm : OpSpec P m) : ∀ n, OpSpec P (withRetry m n) := by
  intro n
  induction n with
  | zero => exact hm
  | succ n ih =>
    intro s
    obtain ⟨d1, ht1, hp1, ha1, hall1⟩ := hm s
    rcases hms : m s with ⟨s', r⟩
    replace ht1 : s'.trace = s.trace ++ d1 := by rw [hms] at ht1; exact ht1
    replace hp1 : s'.pos = posAfter s.pos d1 := by rw [hms] at hp1; exact hp1
    match r with
    | Except.error PyExc.network =>
      obtain ⟨d2, ht2, hp2, ha2, hall2⟩ := ih s'
      refine ⟨d1 ++ d2, ?_, ?_, ?_, ?_⟩
      · simp [withRetry, hms, ht2, ht1]
      · simp [withRetry, hms, hp2, hp1, posAfter_append]
      · rw [adjOK_append, ha1, adjOK_anyFlag ha2, Bool.and_self]
      · simp [List.all_append, hall1, hall2]
    | Except.error PyExc.insufficientFunds =>
      exact ⟨d1, by simp [withRetry, hms, ht1, hp1, ha1, hall1]⟩
    | Except.error PyExc.exchange =>
      exact ⟨d1, by simp [withRetry, hms, ht1, hp1, ha1, hall1]⟩
    | Except.error PyExc.valueError =>
      exact ⟨d1, by simp [withRetry, hms, ht1, hp1, ha1, hall1]⟩
    | Except.ok a =>
      exact ⟨d1, by simp [withRetry, hms, ht1, hp1, ha1, hall1]⟩

theorem opSpec_gatewayCall {P : Event → Bool} {o : Oracle} {mk : Except GErr ℚ → Event}
    (hmk : ∀ r, P (mk r) = true) (hset : ∀ r, isSet (mk r) = false) :
    OpSpec P (gatewayCall o mk) := by
  intro s
  refine ⟨[mk (o s.ctr)], by simp [gatewayCall], ?_, ?_, ?_⟩
  · simp [gatewayCall, posAfter, stepPos_of_noSet (hset (o s.ctr))]
  · simp [adjOK, hset (o s.ctr)]
  · simp [hmk (o s.ctr)]

theorem opSpec_fetch_balance {P : Event → Bool} {o : Oracle}
    (hB : ∀ out, P (Event.callBalance out) = true) : OpSpec P (fetch_balance o) :=
  opSpec_gatewayCall hB (fun _ => rfl)

theorem opSpec_fetch_ticker {P : Event → Bool} {o : Oracle}
    (hT : ∀ out, P (Event.callTicker out) = true) : OpSpec P (fetch_ticker o) :=
  opSpec_gatewayCall hT (fun _ => rfl)

theorem opSpec_create_order {P : Event → Bool} {o : Oracle} {c : Ctx} {req : OrderReq}
    (hO : ∀ out, P (Event.callOrder c req out) = true) : OpSpec P (create_order o c req) :=
  opSpec_gatewayCall hO (fun _ => rfl)

theorem opSpec_get_available_balance {P : Event → Bool} {o : Oracle}
    (hB : ∀ out, P (Event.callBalance out) = true) : OpSpec P (get_available_balance o) :=
  opSpec_withRetry (opSpec_bind (opSpec_fetch_balance hB) (fun _ => opSpec_pure P _)) 2

theorem opSpec_get_current_price {P : Event → Bool} {o : Oracle}
    (hT : ∀ out, P (Event.callTicker out) = true) : OpSpec P (get_current_price o) :=
  opSpec_withRetry (opSpec_fetch_ticker hT) 2

theorem Mbind_assoc {α β γ : Type} (m : M α) (f : α → M β) (g : β → M γ) :
    Mbind (Mbind m f) g = Mbind m (fun a => Mbind (f a) g) := by
  funext s
  simp only [Mbind]
  rcases m s with ⟨s', r⟩
  cases r <;> rfl

/-- A successful order submission immediately followed by a position
assignment (`_execute_market_order` then `self.current_position = …`). -/
theorem opSpec_submit_set {P : Event → Bool} {o : Oracle} {c : Ctx} {req : OrderReq}
    {p : Option Side}
    (hO : ∀ out, P (Event.callOrder c req out) = true)
    (hS : ∀ old, P (Event.setPosition old p) = true) :
    OpSpec P (Mbind (create_order o c req) (fun _ => setPos p)) := by
  intro s
  cases ho : o s.ctr with
  | error g =>
    refine ⟨[Event.callOrder c req (Except.error g)], ?_, ?_, ?_, ?_⟩
    · simp [Mbind, create_order, gatewayCall, ho]
    · simp [Mbind, create_order, gatewayCall, ho, posAfter, stepPos]
    · simp [adjOK, isSet]
    · simp [hO]
  | ok v =>
    refine ⟨[Event.callOrder c req (Except.ok v), Event.setPosition s.pos p], ?_, ?_, ?_, ?_⟩
    · simp [Mbind, create_order, gatewayCall, ho, setPos]
    · simp [Mbind, create_order, gatewayCall, ho, setPos, posAfter, stepPos]
    · simp [adjOK, isSet, isOkOrder]
    · simp [hO, hS]

theorem opSpec_submit_set_bind {β : Type} {P : Event → Bool} {o : Oracle} {c : Ctx}
    {req : OrderReq} {p : Option Side} {k : Unit → M β}
    (hO : ∀ out, P (Event.callOrder c req out) = true)
    (hS : ∀ old, P (Event.setPosition old p) = true)
    (hk : ∀ u, OpSpec P (k u)) :
    OpSpec P (Mbind (create_order o c req) (fun _ => Mbind (setPos p) k)) := by
  have h : Mbind (create_order o c req) (fun _ => Mbind (setPos p) k)
      = Mbind (Mbind (create_order o c req) (fun _ => setPos p)) k := by
    rw [Mbind_assoc]
  rw [h]
  exact opSpec_bind (opSpec_submit_set hO hS) hk

theorem opSpec_calculate_position_size {P : Event → Bool} {o : Oracle} {mi : MarketInfo}
    {price : ℚ}
    (hB : ∀ out, P (Event.callBalance out) = true)
    (hSR : ∀ a m, P (Event.sizeReject a m) = true) :
    OpSpec P (calculate_position_size o mi price) := by
  intro s
  obtain ⟨d1, ht1, hp1, ha1, hall1⟩ := opSpec_get_available_balance (o := o) hB s
  rcases hgb : get_available_balance o s with ⟨s', r⟩
  replace ht1 : s'.trace = s.trace ++ d1 := by rw [hgb] at ht1; exact ht1
  replace hp1 : s'.pos = posAfter s.pos d1 := by rw [hgb] at hp1; exact hp1
  cases r with
  | error e =>
    exact ⟨d1, by simp [calculate_position_size, hgb, ht1, hp1, ha1, hall1]⟩
  | ok balance =>
    cases hcs : calcSize balance price mi.amountStep mi.minAmount with
    | error e =>
      refine ⟨d1 ++ [Event.sizeReject (sizeAmount balance price mi.amountStep) mi.minAmount],
        ?_, ?_, ?_, ?_⟩
      · simp [calculate_position_size, hgb, hcs, ht1]
      · simp [calculate_position_size, hgb, hcs, hp1, posAfter_append, posAfter, stepPos]
      · rw [adjOK_append, ha1]
        simp [adjOK, isSet]
      · simp [List.all_append, hall1, hSR]
    | ok ar =>
      exact ⟨d1, by simp [calculate_position_size, hgb, hcs, ht1, hp1, ha1, hall1]⟩


theorem opSpec_closeBody {P : Event → Bool} {o : Oracle}
    (hB : ∀ out, P (Event.callBalance out) = true)
    (hT : ∀ out, P (Event.callTicker out) = true)
    (hO : ∀ sd amt out, P (Event.callOrder Ctx.flatten (marketReq sd amt) out) = true)
    (hS : ∀ old, P (Event.setPosition old none) = true) :
    OpSpec P (closeBody o) := by
  intro s
  cases hpos : s.pos with
  | none => exact ⟨[], by simp [closeBody, hpos, posAfter, adjOK]⟩
  | some held =>
    have hchain : OpSpec P
        (Mbind (get_available_balance o) (fun balance =>
         Mbind (get_current_price o) (fun price =>
         Mbind (execute_market_order o Ctx.flatten
                  (if held = Side.buy then Side.sell else Side.buy)
                  (if held = Side.sell then balance / price else balance)) (fun _ =>
         setPos none)))) := by
      refine opSpec_bind (opSpec_get_available_balance hB) (fun balance => ?_)
      refine opSpec_bind (opSpec_get_current_price hT) (fun price => ?_)
      unfold execute_market_order
      exact opSpec_submit_set (hO _ _) hS
    obtain ⟨d, h1, h2, h3, h4⟩ := hchain s
    rw [hpos] at h2
    refine ⟨d, ?_, ?_, h3, h4⟩
    · simp only [closeBody, hpos]
      exact h1
    · simp only [closeBody, hpos]
      exact h2

theorem opSpec_emergency_close {P : Event → Bool} {o : Oracle}
    (hB : ∀ out, P (Event.callBalance out) = true)
    (hT : ∀ out, P (Event.callTicker out) = true)
    (hO : ∀ sd amt out, P (Event.callOrder Ctx.flatten (marketReq sd amt) out) = true)
    (hS : ∀ old, P (Event.setPosition old none) = true)
    (hC : P Event.closeStart = true) :
    OpSpec P (emergency_close o) := by
  intro s
  obtain ⟨d, h1, h2, h3, h4⟩ :=
    opSpec_withRetry (opSpec_closeBody hB hT hO hS) 4
      { s with trace := s.trace ++ [Event.closeStart] }
  refine ⟨Event.closeStart :: d, ?_, ?_, ?_, ?_⟩
  · simpa [emergency_close] using h1
  · simpa [emergency_close, posAfter, stepPos] using h2
  · simpa [adjOK, isSet, isOkOrder] using adjOK_anyFlag h3 false
  · simp [h4, hC]

theorem opSpec_place_oco_order {P : Event → Bool} {o : Oracle} {amount entry_price : ℚ}
    (hOco : ∀ out, P (Event.callOrder Ctx.oco (ocoReq amount entry_price) out) = true)
    (hB : ∀ out, P (Event.callBalance out) = true)
    (hT : ∀ out, P (Event.callTicker out) = true)
    (hO : ∀ sd amt out, P (Event.callOrder Ctx.flatten (marketReq sd amt) out) = true)
    (hS : ∀ old, P (Event.setPosition old none) = true)
    (hC : P Event.closeStart = true) :
    OpSpec P (place_oco_order o amount entry_price) := by
  intro s
  cases ho : o s.ctr with
  | ok v =>
    refine ⟨[Event.callOrder Ctx.oco (ocoReq amount entry_price) (Except.ok v)], ?_, ?_, ?_, ?_⟩
    · simp [place_oco_order, create_order, gatewayCall, ho]
    · simp [place_oco_order, create_order, gatewayCall, ho, posAfter, stepPos]
    · simp [adjOK, isSet]
    · simp [hOco]
  | error g =>
    obtain ⟨d2, h1, h2, h3, h4⟩ := opSpec_emergency_close hB hT hO hS hC
      { s with ctr := s.ctr + 1,
               trace := s.trace ++
                 [Event.callOrder Ctx.oco (ocoReq amount entry_price) (Except.error g)] }
    rcases hec : emergency_close o
        { s with ctr := s.ctr + 1,
                 trace := s.trace ++
                   [Event.callOrder Ctx.oco (ocoReq amount entry_price) (Except.error g)] }
      with ⟨s'', r2⟩
    replace h1 : s''.trace
        = s.trace ++ [Event.callOrder Ctx.oco (ocoReq amount entry_price) (Except.error g)] ++ d2 := by
      rw [hec] at h1; exact h1
    replace h2 : s''.pos = posAfter s.pos d2 := by
      rw [hec] at h2
      simpa [posAfter, stepPos] using h2
    refine ⟨Event.callOrder Ctx.oco (ocoReq amount entry_price) (Except.error g) :: d2,
      ?_, ?_, ?_, ?_⟩
    · cases r2 <;>
        simp [place_oco_order, create_order, gatewayCall, ho, hec, h1]
    · cases r2 <;>
        simp [place_oco_order, create_order, gatewayCall, ho, hec, h2, posAfter, stepPos]
    · simpa [adjOK, isSet, isOkOrder] using adjOK_anyFlag h3 false
    · simp [h4, hOco]

theorem opSpec_checkConflict {P : Event → Bool} {o : Oracle} {side : Side}
    (hB : ∀ out, P (Event.callBalance out) = true)
    (hT : ∀ out, P (Event.callTicker out) = true)
    (hO : ∀ sd amt out, P (Event.callOrder Ctx.flatten (marketReq sd amt) out) = true)
    (hS : ∀ old, P (Event.setPosition old none) = true)
    (hC : P Event.closeStart = true) :
    OpSpec P (checkConflict o side) := by
  intro s
  cases hpos : s.pos with
  | none => exact ⟨[], by simp [checkConflict, hpos, posAfter, adjOK]⟩
  | some p =>
    by_cases hps : p = side
    · exact ⟨[], by simp [checkConflict, hpos, hps, posAfter, adjOK]⟩
    · obtain ⟨d, h1, h2, h3, h4⟩ := opSpec_emergency_close (o := o) hB hT hO hS hC s
      rw [hpos] at h2
      refine ⟨d, ?_, ?_, h3, h4⟩
      · simp only [checkConflict, hpos]
        simp [hps, h1]
      · simp only [checkConflict, hpos]
        simp [hps, h2]

theorem opSpec_psHandler {P : Event → Bool} {o : Oracle}
    (hB : ∀ out, P (Event.callBalance out) = true)
    (hT : ∀ out, P (Event.callTicker out) = true)
    (hO : ∀ sd amt out, P (Event.callOrder Ctx.flatten (marketReq sd amt) out) = true)
    (hS : ∀ old, P (Event.setPosition old none) = true)
    (hC : P Event.closeStart = true) :
    ∀ e, OpSpec P (psHandler o e) := by
  intro e
  cases e with
  | insufficientFunds => exact opSpec_pure P false
  | network => exact opSpec_raise P PyExc.network
  | exchange =>
    intro s
    obtain ⟨d, h1, h2, h3, h4⟩ := opSpec_emergency_close hB hT hO hS hC s
    rcases hec : emergency_close o s with ⟨s', r⟩
    replace h1 : s'.trace = s.trace ++ d := by rw [hec] at h1; exact h1
    replace h2 : s'.pos = posAfter s.pos d := by rw [hec] at h2; exact h2
    cases r <;> exact ⟨d, by simp [psHandler, hec, h1, h2, h3, h4]⟩
  | valueError =>
    intro s
    obtain ⟨d, h1, h2, h3, h4⟩ := opSpec_emergency_close hB hT hO hS hC s
    rcases hec : emergency_close o s with ⟨s', r⟩
    replace h1 : s'.trace = s.trace ++ d := by rw [hec] at h1; exact h1
    replace h2 : s'.pos = posAfter s.pos d := by rw [hec] at h2; exact h2
    cases r <;> exact ⟨d, by simp [psHandler, hec, h1, h2, h3, h4]⟩

theorem opSpec_psBody {P : Event → Bool} {o : Oracle} {mi : MarketInfo} {side : Side}
    (hB : ∀ out, P (Event.callBalance out) = true)
    (hT : ∀ out, P (Event.callTicker out) = true)
    (hSR : ∀ a m, P (Event.sizeReject a m) = true)
    (hOe : ∀ amt out, P (Event.callOrder Ctx.entry (marketReq side amt) out) = true)
    (hSet : ∀ old p, P (Event.setPosition old p) = true)
    (hOco : ∀ amt pr out, P (Event.callOrder Ctx.oco (ocoReq amt pr) out) = true)
    (hO : ∀ sd amt out, P (Event.callOrder Ctx.flatten (marketReq sd amt) out) = true)
    (hC : P Event.closeStart = true) :
    OpSpec P (psBody o mi side) := by
  refine opSpec_bind (opSpec_checkConflict hB hT hO (fun old => hSet old none) hC) (fun _ => ?_)
  refine opSpec_bind (opSpec_get_current_price hT) (fun price => ?_)
  refine opSpec_bind (opSpec_calculate_position_size hB hSR) (fun ar => ?_)
  unfold execute_market_order
  refine opSpec_submit_set_bind (hOe _) (fun old => hSet old (some side)) (fun _ => ?_)
  exact opSpec_bind
    (opSpec_place_oco_order (hOco _ _) hB hT hO (fun old => hSet old none) hC)
    (fun _ => opSpec_pure P true)

theorem opSpec_process_signal {P : Event → Bool} {o : Oracle} {mi : MarketInfo} {sig : String}
    (hB : ∀ out, P (Event.callBalance out) = true)
    (hT : ∀ out, P (Event.callTicker out) = true)
    (hSR : ∀ a m, P (Event.sizeReject a m) = true)
    (hOe : ∀ sd amt out, P (Event.callOrder Ctx.entry (marketReq sd amt) out) = true)
    (hSet : ∀ old p, P (Event.setPosition old p) = true)
    (hOco : ∀ amt pr out, P (Event.callOrder Ctx.oco (ocoReq amt pr) out) = true)
    (hO : ∀ sd amt out, P (Event.callOrder Ctx.flatten (marketReq sd amt) out) = true)
    (hC : P Event.closeStart = true) :
    OpSpec P (process_signal o mi sig) := by
  intro s
  by_cases h1 : sig = "buy"
  · obtain ⟨d, hh⟩ := opSpec_catch
      (opSpec_psBody hB hT hSR (hOe Side.buy) hSet hOco hO hC)
      (opSpec_psHandler hB hT hO (fun old => hSet old none) hC) s
    exact ⟨d, by simpa [process_signal, h1] using hh⟩
  · by_cases h2 : sig = "sell"
    · obtain ⟨d, hh⟩ := opSpec_catch
        (opSpec_psBody hB hT hSR (hOe Side.sell) hSet hOco hO hC)
        (opSpec_psHandler hB hT hO (fun old => hSet old none) hC) s
      exact ⟨d, by simpa [process_signal, h1, h2] using hh⟩
    · exact ⟨[], by simp [process_signal, h1, h2, posAfter, adjOK]⟩

/-! ## Position behaviour of the close path -/

theorem opSpec_pos_eq {α : Type} {m : M α} (h : OpSpec (fun e => !isSet e) m) (s : St) :
    (m s).1.pos = s.pos := by
  obtain ⟨d, _, hp, _, hall⟩ := h s
  rw [hp, posAfter_of_noSet hall]

theorem get_available_balance_pos (o : Oracle) (s : St) :
    (get_available_balance o s).1.pos = s.pos :=
  opSpec_pos_eq (opSpec_get_available_balance (fun _ => rfl)) s

theorem get_current_price_pos (o : Oracle) (s : St) :
    (get_current_price o s).1.pos = s.pos :=
  opSpec_pos_eq (opSpec_get_current_price (fun _ => rfl)) s

theorem execute_market_order_pos (o : Oracle) (c : Ctx) (sd : Side) (amt : ℚ) (s : St) :
    (execute_market_order o c sd amt s).1.pos = s.pos := by
  unfold execute_market_order
  exact opSpec_pos_eq (opSpec_create_order (fun _ => rfl)) s

/-- A `closeBody` run that returns normally leaves the position record empty
(either it was already empty, or the flatten succeeded and cleared it). -/
theorem closeBody_pos_ok {o : Oracle} {s : St} {u : Unit}
    (h : (closeBody o s).2 = Except.ok u) : (closeBody o s).1.pos = none := by
  cases hpos : s.pos with
  | none => simp [closeBody, hpos]
  | some held =>
    rcases hb : get_available_balance o s with ⟨s1, r1⟩
    cases r1 with
    | error e => exfalso; revert h; simp [closeBody, hpos, Mbind, hb]
    | ok b =>
      rcases htk : get_current_price o s1 with ⟨s2, r2⟩
      cases r2 with
      | error e => exfalso; revert h; simp [closeBody, hpos, Mbind, hb, htk]
      | ok p =>
        rcases hor : execute_market_order o Ctx.flatten
            (if held = Side.buy then Side.sell else Side.buy)
            (if held = Side.sell then b / p else b) s2 with ⟨s3, r3⟩
        cases r3 with
        | error e => exfalso; revert h; simp [closeBody, hpos, Mbind, hb, htk, hor]
        | ok v => simp [closeBody, hpos, Mbind, hb, htk, hor, setPos]

/-- A `closeBody` run that raises leaves the position record unchanged. -/
theorem closeBody_pos_err {o : Oracle} {s : St} {e : PyExc}
    (h : (closeBody o s).2 = Except.error e) : (closeBody o s).1.pos = s.pos := by
  cases hpos : s.pos with
  | none => exfalso; revert h; simp [closeBody, hpos]
  | some held =>
    rcases hb : get_available_balance o s with ⟨s1, r1⟩
    have hb1 : s1.pos = s.pos := by
      have := get_available_balance_pos o s
      rw [hb] at this
      exact this
    cases r1 with
    | error e1 => simp [closeBody, hpos, Mbind, hb, hb1]
    | ok b =>
      rcases htk : get_current_price o s1 with ⟨s2, r2⟩
      have hb2 : s2.pos = s.pos := by
        have := get_current_price_pos o s1
        rw [htk] at this
        rw [this, hb1]
      cases r2 with
      | error e2 => simp [closeBody, hpos, Mbind, hb, htk, hb2]
      | ok p =>
        rcases hor : execute_market_order o Ctx.flatten
            (if held = Side.buy then Side.sell else Side.buy)
            (if held = Side.sell then b / p else b) s2 with ⟨s3, r3⟩
        have hb3 : s3.pos = s.pos := by
          have := execute_market_order_pos o Ctx.flatten
            (if held = Side.buy then Side.sell else Side.buy)
            (if held = Side.sell then b / p else b) s2
          rw [hor] at this
          rw [this, hb2]
        cases r3 with
        | error e3 => simp [closeBody, hpos, Mbind, hb, htk, hor, hb3]
        | ok v => exfalso; revert h; simp [closeBody, hpos, Mbind, hb, htk, hor, setPos]

theorem withRetry_closeBody_pos_ok {o : Oracle} :
    ∀ (n : Nat) (s : St) (u : Unit), (withRetry (closeBody o) n s).2 = Except.ok u →
      (withRetry (closeBody o) n s).1.pos = none := by
  intro n
  induction n with
  | zero => intro s u h; exact closeBody_pos_ok h
  | succ n ih =>
    intro s u h
    rcases hcb : closeBody o s with ⟨s', r⟩
    match r with
    | Except.error PyExc.network =>
      have heq : withRetry (closeBody o) (n + 1) s = withRetry (closeBody o) n s' := by
        simp [withRetry, hcb]
      rw [heq] at h ⊢
      exact ih s' u h
    | Except.error PyExc.insufficientFunds => exfalso; revert h; simp [withRetry, hcb]
    | Except.error PyExc.exchange => exfalso; revert h; simp [withRetry, hcb]
    | Except.error PyExc.valueError => exfalso; revert h; simp [withRetry, hcb]
    | Except.ok u2 =>
      have heq : withRetry (closeBody o) (n + 1) s = (s', Except.ok u2) := by
        simp [withRetry, hcb]
      rw [heq]
      have h2 := closeBody_pos_ok (o := o) (s := s) (u := u2) (by rw [hcb])
      rw [hcb] at h2
      exact h2

theorem withRetry_closeBody_pos_err {o : Oracle} :
    ∀ (n : Nat) (s : St) (e : PyExc), (withRetry (closeBody o) n s).2 = Except.error e →
      (withRetry (closeBody o) n s).1.pos = s.pos := by
  intro n
  induction n with
  | zero => intro s e h; exact closeBody_pos_err h
  | succ n ih =>
    intro s e h
    rcases hcb : closeBody o s with ⟨s', r⟩
    match r with
    | Except.error PyExc.network =>
      have heq : withRetry (closeBody o) (n + 1) s = withRetry (closeBody o) n s' := by
        simp [withRetry, hcb]
      have hp1 : s'.pos = s.pos := by
        have h2 := closeBody_pos_err (o := o) (s := s) (e := PyExc.network) (by rw [hcb])
        rw [hcb] at h2
        exact h2
      rw [heq] at h ⊢
      rw [ih s' e h, hp1]
    | Except.error PyExc.insufficientFunds =>
      have heq : withRetry (closeBody o) (n + 1) s = (s', Except.error PyExc.insufficientFunds) := by
        simp [withRetry, hcb]
      rw [heq]
      have h2 := closeBody_pos_err (o := o) (s := s) (e := PyExc.insufficientFunds) (by rw [hcb])
      rw [hcb] at h2
      exact h2
    | Except.error PyExc.exchange =>
      have heq : withRetry (closeBody o) (n + 1) s = (s', Except.error PyExc.exchange) := by
        simp [withRetry, hcb]
      rw [heq]
      have h2 := closeBody_pos_err (o := o) (s := s) (e := PyExc.exchange) (by rw [hcb])
      rw [hcb] at h2
      exact h2
    | Except.error PyExc.valueError =>
      have heq : withRetry (closeBody o) (n + 1) s = (s', Except.error PyExc.valueError) := by
        simp [withRetry, hcb]
      rw [heq]
      have h2 := closeBody_pos_err (o := o) (s := s) (e := PyExc.valueError) (by rw [hcb])
      rw [hcb] at h2
      exact h2
    | Except.ok u => exfalso; revert h; simp [withRetry, hcb]

/-- A normally-returning `_emergency_close` always leaves the engine flat. -/
theorem emergency_close_pos_ok {o : Oracle} {s : St} {u : Unit}
    (h : (emergency_close o s).2 = Except.ok u) : (emergency_close o s).1.pos = none := by
  simp only [emergency_close] at h
  simp only [emergency_close]
  exact withRetry_closeBody_pos_ok 4 _ u h

/-- A raising `_emergency_close` leaves the position record unchanged. -/
theorem emergency_close_pos_err {o : Oracle} {s : St} {e : PyExc}
    (h : (emergency_close o s).2 = Except.error e) : (emergency_close o s).1.pos = s.pos := by
  simp only [emergency_close] at h
  simp only [emergency_close]
  exact withRetry_closeBody_pos_err 4 _ e h

/-! ## Claim-level trace helpers -/

/-- Bridge between `Rat.floor` (used by the executable embedding) and the
mathematical floor. -/
theorem rat_floor_eq (q : ℚ) : (Rat.floor q : ℤ) = ⌊q⌋ := by
  rw [Rat.floor_def', Rat.floor_def]

/-- Did any order submission in the trace succeed? -/
def hasOkOrder (t : List Event) : Bool := t.any isOkOrder

/-- No entry order was submitted anywhere in this trace. -/
def noEntryOrders (t : List Event) : Bool := t.all (fun e => !isEntry e)

/-- Every protective (OCO) order in the trace has side `sell`. -/
def protectionSellOnly (e : Event) : Bool :=
  match e with
  | Event.callOrder Ctx.oco req _ => req.side == Side.sell
  | _ => true

/-! ## Claims -/

/-- C2: for every `balance ≥ 0`, `price > 0`, `step > 0` and `minAmount`,
the position-sizing computation of `_calculate_position_size` returns an
amount that is an integer multiple of `step`, at most
`balance * riskFraction / price`, and either at least `minAmount` or the
computation fails with the below-minimum `ValueError`
(the `InsufficientSize` condition) instead of returning. -/
theorem C2_sizing_determinism (balance price step minAmount : ℚ)
    (hbal : 0 ≤ balance) (hpr : 0 < price) (hstep : 0 < step) :
    (∃ k : ℤ, sizeAmount balance price step = (k : ℚ) * step)
    ∧ sizeAmount balance price step ≤ balance * riskFraction / price
    ∧ ((calcSize balance price step minAmount
          = Except.ok (sizeAmount balance price step, balance * riskFraction)
          ∧ minAmount ≤ sizeAmount balance price step)
        ∨ calcSize balance price step minAmount = Except.error PyExc.valueError) := by
  refine ⟨⟨Rat.floor (balance * riskFraction / price / step), rfl⟩, ?_, ?_⟩
  · rw [sizeAmount]
    have hq : ((Rat.floor (balance * riskFraction / price / step) : ℤ) : ℚ)
        = ((⌊balance * riskFraction / price / step⌋ : ℤ) : ℚ) := by
      rw [rat_floor_eq]
    rw [hq]
    calc ((⌊balance * riskFraction / price / step⌋ : ℤ) : ℚ) * step
        ≤ (balance * riskFraction / price / step) * step :=
          mul_le_mul_of_nonneg_right (Int.floor_le _) hstep.le
      _ = balance * riskFraction / price := div_mul_cancel₀ _ (ne_of_gt hstep)
  · rcases lt_or_le (sizeAmount balance price step) minAmount with hlt | hle
    · right
      simp [calcSize, hlt]
    · left
      refine ⟨?_, hle⟩
      simp [calcSize, not_lt.mpr hle]

/-- Witness for C2 (the scenario of the specification: balance 1000,
price 0.10, step 1, minimum 10 gives the quantized amount 9000). -/
theorem C2_sizing_determinism_witness :
    (0 : ℚ) ≤ 1000 ∧ (0 : ℚ) < 1/10 ∧ (0 : ℚ) < 1
    ∧ ((∃ k : ℤ, sizeAmount 1000 (1/10) 1 = (k : ℚ) * 1)
      ∧ sizeAmount 1000 (1/10) 1 ≤ 1000 * riskFraction / (1/10)
      ∧ ((calcSize 1000 (1/10) 1 10
            = Except.ok (sizeAmount 1000 (1/10) 1, 1000 * riskFraction)
            ∧ 10 ≤ sizeAmount 1000 (1/10) 1)
          ∨ calcSize 1000 (1/10) 1 10 = Except.error PyExc.valueError)) :=
  ⟨by norm_num, by norm_num, by norm_num,
   C2_sizing_determinism 1000 (1/10) 1 10 (by norm_num) (by norm_num) (by norm_num)⟩

/-- All-true event predicate, the trivial instantiation of `OpSpec`. -/
theorem opSpec_process_signal_true (o : Oracle) (mi : MarketInfo) (sig : String) :
    OpSpec (fun _ => true) (process_signal o mi sig) :=
  opSpec_process_signal (fun _ => rfl) (fun _ => rfl) (fun _ _ => rfl) (fun _ _ _ => rfl)
    (fun _ _ => rfl) (fun _ _ _ => rfl) (fun _ _ _ => rfl) rfl

theorem opSpec_emergency_close_true (o : Oracle) :
    OpSpec (fun _ => true) (emergency_close o) :=
  opSpec_emergency_close (fun _ => rfl) (fun _ => rfl) (fun _ _ _ => rfl) (fun _ => rfl) rfl

theorem noOkOrder_all {d : List Event} (h : hasOkOrder d = false) :
    d.all (fun e => !isOkOrder e) = true := by
  rw [List.all_eq_true]
  intro e he
  have := List.any_eq_false.mp h e he
  simpa using this

/-- C1: in every `process_signal` or `_emergency_close` run, the position
record (`current_position`) is mutated only immediately after an exchange
order submission that returned successfully (`adjOK` over the run trace),
and in a run in which no order submission succeeded — in particular when
every submission raised — the position record keeps its initial value. -/
theorem C1_position_mutation_only_after_confirmed_submission
    (o : Oracle) (mi : MarketInfo) (sig : String) (pos : Option Side) :
    (adjOK false (runPS o mi sig pos).1.trace = true
      ∧ (hasOkOrder (runPS o mi sig pos).1.trace = true ∨ (runPS o mi sig pos).1.pos = pos))
    ∧ (adjOK false (runEC o pos).1.trace = true
      ∧ (hasOkOrder (runEC o pos).1.trace = true ∨ (runEC o pos).1.pos = pos)) := by
  constructor
  · obtain ⟨d, ht, hp, ha, _⟩ := opSpec_process_signal_true o mi sig (initSt pos)
    have htr : (runPS o mi sig pos).1.trace = d := by
      rw [runPS, ht]
      simp [initSt]
    have hps : (runPS o mi sig pos).1.pos = posAfter pos d := by
      rw [runPS, hp]
      simp [initSt]
    refine ⟨by rw [htr]; exact ha, ?_⟩
    by_cases hok : hasOkOrder (runPS o mi sig pos).1.trace = true
    · exact Or.inl hok
    · right
      rw [htr] at hok
      have hfalse : hasOkOrder d = false := by
        cases hdb : hasOkOrder d with
        | false => rfl
        | true => exact absurd hdb hok
      rw [hps, posAfter_of_noSet (noSet_of_adjOK ha (noOkOrder_all hfalse))]
  · obtain ⟨d, ht, hp, ha, _⟩ := opSpec_emergency_close_true o (initSt pos)
    have htr : (runEC o pos).1.trace = d := by
      rw [runEC, ht]
      simp [initSt]
    have hps : (runEC o pos).1.pos = posAfter pos d := by
      rw [runEC, hp]
      simp [initSt]
    refine ⟨by rw [htr]; exact ha, ?_⟩
    by_cases hok : hasOkOrder (runEC o pos).1.trace = true
    · exact Or.inl hok
    · right
      rw [htr] at hok
      have hfalse : hasOkOrder d = false := by
        cases hdb : hasOkOrder d with
        | false => rfl
        | true => exact absurd hdb hok
      rw [hps, posAfter_of_noSet (noSet_of_adjOK ha (noOkOrder_all hfalse))]

/-- C9: the protective bracket order submitted by `_place_oco_order` has
side `sell` unconditionally — the request record hard-codes `side := sell` —
so every OCO submission in every `process_signal` run has side `sell`
regardless of whether the entry signal was `buy` or `sell`. -/
theorem C9_protection_order_always_sell :
    (∀ amount entry_price : ℚ, (ocoReq amount entry_price).side = Side.sell)
    ∧ (∀ (o : Oracle) (mi : MarketInfo) (sig : String) (pos : Option Side),
        (runPS o mi sig pos).1.trace.all protectionSellOnly = true) := by
  refine ⟨fun _ _ => rfl, fun o mi sig pos => ?_⟩
  obtain ⟨d, ht, _, _, hall⟩ := @opSpec_process_signal protectionSellOnly o mi sig
    (fun _ => rfl) (fun _ => rfl) (fun _ _ => rfl) (fun _ _ _ => rfl)
    (fun _ _ => rfl) (fun _ _ _ => rfl) (fun _ _ _ => rfl) rfl (initSt pos)
  have htr : (runPS o mi sig pos).1.trace = d := by
    rw [runPS, ht]
    simp [initSt]
  rw [htr]
  exact hall

/-- C7: a gateway that fails with a network-class (retryable) error on every
attempt makes the guarded `_get_current_price` call invoke `fetch_ticker`
exactly its `max_tries = 3` times (three ticker events, counter advanced by
exactly 3) and then surface the network-error outcome; likewise for
`_get_available_balance`; and a full `process_signal` run then terminates
with the network-error outcome re-raised to the caller — the retry loop is
a total function, never unbounded. -/
theorem C7_retry_bound_on_persistent_network_failure
    (o : Oracle) (s : St) (mi : MarketInfo) (pos : Option Side)
    (h : ∀ k, o k = Except.error GErr.network) :
    ((get_current_price o s).1.ctr = s.ctr + 3
      ∧ (get_current_price o s).1.trace
          = s.trace ++ [Event.callTicker (Except.error GErr.network),
                        Event.callTicker (Except.error GErr.network),
                        Event.callTicker (Except.error GErr.network)]
      ∧ (get_current_price o s).2 = Except.error PyExc.network)
    ∧ ((get_available_balance o s).1.ctr = s.ctr + 3
      ∧ (get_available_balance o s).1.trace
          = s.trace ++ [Event.callBalance (Except.error GErr.network),
                        Event.callBalance (Except.error GErr.network),
                        Event.callBalance (Except.error GErr.network)]
      ∧ (get_available_balance o s).2 = Except.error PyExc.network)
    ∧ (runPS o mi "buy" pos).2 = Except.error PyExc.network
    ∧ (runPS o mi "sell" pos).2 = Except.error PyExc.network := by
  refine ⟨?_, ?_, ?_, ?_⟩
  · simp [get_current_price, withRetry, fetch_ticker, gatewayCall, h, toPyExc]
  · simp [get_available_balance, withRetry, Mbind, Mpure, fetch_balance, gatewayCall, h, toPyExc]
  · rcases pos with _ | p
    · simp [runPS, process_signal, Mcatch, psBody, psHandler, Mbind, Mraise, Mpure, checkConflict,
        initSt, get_current_price, withRetry, fetch_ticker, gatewayCall, h, toPyExc]
    · cases p <;>
        simp [runPS, process_signal, Mcatch, psBody, psHandler, Mbind, Mraise, Mpure, checkConflict,
          initSt, emergency_close, closeBody, get_available_balance, get_current_price, withRetry,
          fetch_balance, fetch_ticker, gatewayCall, h, toPyExc]
  · rcases pos with _ | p
    · simp [runPS, process_signal, Mcatch, psBody, psHandler, Mbind, Mraise, Mpure, checkConflict,
        initSt, get_current_price, withRetry, fetch_ticker, gatewayCall, h, toPyExc]
    · cases p <;>
        simp [runPS, process_signal, Mcatch, psBody, psHandler, Mbind, Mraise, Mpure, checkConflict,
          initSt, emergency_close, closeBody, get_available_balance, get_current_price, withRetry,
          fetch_balance, fetch_ticker, gatewayCall, h, toPyExc]

/-- Witness for C7: the constant network-failure oracle from a flat fresh
state. -/
theorem C7_retry_bound_on_persistent_network_failure_witness :
    ((get_current_price (fun _ => Except.error GErr.network) (initSt none)).1.ctr
        = (initSt none).ctr + 3
      ∧ (get_current_price (fun _ => Except.error GErr.network) (initSt none)).1.trace
          = (initSt none).trace ++ [Event.callTicker (Except.error GErr.network),
                        Event.callTicker (Except.error GErr.network),
                        Event.callTicker (Except.error GErr.network)]
      ∧ (get_current_price (fun _ => Except.error GErr.network) (initSt none)).2
          = Except.error PyExc.network)
    ∧ ((get_available_balance (fun _ => Except.error GErr.network) (initSt none)).1.ctr
        = (initSt none).ctr + 3
      ∧ (get_available_balance (fun _ => Except.error GErr.network) (initSt none)).1.trace
          = (initSt none).trace ++ [Event.callBalance (Except.error GErr.network),
                        Event.callBalance (Except.error GErr.network),
                        Event.callBalance (Except.error GErr.network)]
      ∧ (get_available_balance (fun _ => Except.error GErr.network) (initSt none)).2
          = Except.error PyExc.network)
    ∧ (runPS (fun _ => Except.error GErr.network) ⟨1, 1⟩ "buy" none).2
        = Except.error PyExc.network
    ∧ (runPS (fun _ => Except.error GErr.network) ⟨1, 1⟩ "sell" none).2
        = Except.error PyExc.network :=
  C7_retry_bound_on_persistent_network_failure
    (fun _ => Except.error GErr.network) (initSt none) ⟨1, 1⟩ none (fun _ => rfl)

set_option maxRecDepth 8000

/-- C10: a signal equal to the currently held side performs no closing trade
— the conflict check `current_position != signal` is false — and submits a
fresh full-size entry order plus a bracket order anyway, leaving the
position side unchanged: repeated same-direction signals stack additional
exchange orders onto the existing position. -/
theorem C10_same_side_signal_stacks_orders
    (o : Oracle) (mi : MarketInfo) (a : Side) (p b oid oid2 : ℚ)
    (h0 : o 0 = Except.ok p)
    (h1 : o 1 = Except.ok b)
    (hmin : mi.minAmount ≤ sizeAmount (b * (999/1000)) p mi.amountStep)
    (h2 : o 2 = Except.ok oid)
    (h3 : o 3 = Except.ok oid2) :
    runPS o mi (sideSignal a) (some a)
      = ({ pos := some a, ctr := 4,
           trace := [Event.callTicker (Except.ok p),
                     Event.callBalance (Except.ok b),
                     Event.callOrder Ctx.entry
                       (marketReq a (sizeAmount (b * (999/1000)) p mi.amountStep)) (Except.ok oid),
                     Event.setPosition (some a) (some a),
                     Event.callOrder Ctx.oco
                       (ocoReq (sizeAmount (b * (999/1000)) p mi.amountStep) p) (Except.ok oid2)] },
         Except.ok true) := by
  have hnl : ¬ (sizeAmount (b * (999/1000)) p mi.amountStep < mi.minAmount) := not_lt.mpr hmin
  cases a <;>
    simp [runPS, process_signal, sideSignal, Mcatch, psBody, Mbind, Mpure, checkConflict, initSt,
      get_current_price, get_available_balance, withRetry, fetch_ticker, fetch_balance,
      gatewayCall, h0, h1, h2, h3, calculate_position_size, calcSize, hnl, execute_market_order,
      create_order, setPos, place_oco_order]

/-- Witness for C10: holding `buy`, a second `buy` signal with price 1 and
balance 1000 stacks a fresh 899-unit entry order and bracket order. -/
theorem C10_same_side_signal_stacks_orders_witness :
    runPS (fun n => if n = 0 then Except.ok 1 else if n = 1 then Except.ok 1000
             else if n = 2 then Except.ok 7 else Except.ok 8)
        { amountStep := 1, minAmount := 1 } (sideSignal Side.buy) (some Side.buy)
      = ({ pos := some Side.buy, ctr := 4,
           trace := [Event.callTicker (Except.ok 1),
                     Event.callBalance (Except.ok 1000),
                     Event.callOrder Ctx.entry
                       (marketReq Side.buy (sizeAmount (1000 * (999/1000)) 1 1)) (Except.ok 7),
                     Event.setPosition (some Side.buy) (some Side.buy),
                     Event.callOrder Ctx.oco
                       (ocoReq (sizeAmount (1000 * (999/1000)) 1 1) 1) (Except.ok 8)] },
         Except.ok true) :=
  C10_same_side_signal_stacks_orders
    (fun n => if n = 0 then Except.ok 1 else if n = 1 then Except.ok 1000
      else if n = 2 then Except.ok 7 else Except.ok 8)
    { amountStep := 1, minAmount := 1 } Side.buy 1 1000 7 8
    rfl rfl (by with_unfolding_all decide) rfl rfl

/-- The amounts of the entry orders occurring in a trace, in order. -/
def entryAmounts : List Event → List ℚ
  | [] => []
  | Event.callOrder Ctx.entry req _ :: rest => req.amount :: entryAmounts rest
  | _ :: rest => entryAmounts rest

/-- The amounts of the flattening (emergency-close) orders in a trace. -/
def flattenAmounts : List Event → List ℚ
  | [] => []
  | Event.callOrder Ctx.flatten req _ :: rest => req.amount :: flattenAmounts rest
  | _ :: rest => flattenAmounts rest

/-- Oracle for the C5 counterexample: price 2, balance 100, all orders
accepted; the position is opened with 44 units, the later emergency close
flattens with 99.9 units. -/
def oracleC5 : Oracle := fun n =>
  if n = 0 then Except.ok 2 else if n = 1 then Except.ok 100
  else if n = 2 then Except.ok 7 else if n = 3 then Except.ok 8
  else if n = 4 then Except.ok 100 else if n = 5 then Except.ok 2
  else Except.ok 9

/-- Counterexample to C5: open a `buy` position via `process_signal`
(entry amount 44, recorded in the trace), then run `_emergency_close` with
the balance and price unchanged: the flattening market order carries amount
999/10 — `balance * 0.999`, a quantity derived from the current balance —
not the held amount 44. -/
theorem C5_counterexample :
    entryAmounts ((emergency_close oracleC5
        (runPS oracleC5 { amountStep := 1, minAmount := 1 } "buy" none).1).1.trace) = [44]
    ∧ flattenAmounts ((emergency_close oracleC5
        (runPS oracleC5 { amountStep := 1, minAmount := 1 } "buy" none).1).1.trace) = [999/10]
    ∧ ¬ ((999 : ℚ)/10 = 44) := by
  with_unfolding_all decide

/-- C5 amended: the quantity of the flattening order submitted by
`_emergency_close` is derived from the current available balance — the raw
fee-adjusted balance when the held side is `buy`, `balance / price` when it
is `sell` — not a recorded held amount (the engine records none), and it is
not risk-fraction scaled. -/
theorem C5_amended_flatten_amount_is_balance_derived
    (o : Oracle) (s : St) (held : Side) (b p : ℚ)
    (hpos : s.pos = some held)
    (hb : (get_available_balance o s).2 = Except.ok b)
    (hp : (get_current_price o (get_available_balance o s).1).2 = Except.ok p) :
    ∃ out rest,
      (closeBody o s).1.trace
        = (get_current_price o (get_available_balance o s).1).1.trace
          ++ [Event.callOrder Ctx.flatten
               (marketReq (if held = Side.buy then Side.sell else Side.buy)
                          (if held = Side.sell then b / p else b)) out]
          ++ rest := by
  rcases hgb : get_available_balance o s with ⟨s1, r1⟩
  rw [hgb] at hb hp
  cases r1 with
  | error e => exact absurd hb (by simp)
  | ok bv =>
    have hbv : bv = b := by injection hb
    subst hbv
    rcases hpr : get_current_price o s1 with ⟨s2, r2⟩
    rw [hpr] at hp
    cases r2 with
    | error e => exact absurd hp (by simp)
    | ok pv =>
      have hpv : pv = p := by injection hp
      subst hpv
      cases ho : o s2.ctr with
      | ok v =>
        refine ⟨Except.ok v, [Event.setPosition s2.pos none], ?_⟩
        simp [closeBody, hpos, Mbind, hgb, hpr, execute_market_order, create_order,
          gatewayCall, ho, setPos, marketReq]
      | error g =>
        refine ⟨Except.error g, [], ?_⟩
        simp [closeBody, hpos, Mbind, hgb, hpr, execute_market_order, create_order,
          gatewayCall, ho, marketReq]

/-- Witness for the amended C5: held `buy`, balance 100 (99.9 after the fee
buffer), price 2 — the flatten order carries 99.9, the raw available
balance. -/
theorem C5_amended_flatten_amount_is_balance_derived_witness :
    ∃ out rest,
      (closeBody (fun n => if n = 0 then Except.ok 100 else if n = 1 then Except.ok 2
          else Except.ok 9) (initSt (some Side.buy))).1.trace
        = (get_current_price (fun n => if n = 0 then Except.ok 100 else if n = 1 then Except.ok 2
            else Except.ok 9)
            (get_available_balance (fun n => if n = 0 then Except.ok 100
              else if n = 1 then Except.ok 2 else Except.ok 9)
              (initSt (some Side.buy))).1).1.trace
          ++ [Event.callOrder Ctx.flatten
               (marketReq (if Side.buy = Side.buy then Side.sell else Side.buy)
                          (if Side.buy = Side.sell then (999 : ℚ)/10 / 2 else (999 : ℚ)/10)) out]
          ++ rest :=
  C5_amended_flatten_amount_is_balance_derived
    (fun n => if n = 0 then Except.ok 100 else if n = 1 then Except.ok 2 else Except.ok 9)
    (initSt (some Side.buy)) Side.buy (999/10) 2
    rfl (by with_unfolding_all decide) (by with_unfolding_all decide)

/-- For a valid signal string, `process_signal` is exactly the guarded
pipeline body under the exception handlers. -/
theorem process_signal_eq (o : Oracle) (mi : MarketInfo) (a : Side) :
    process_signal o mi (sideSignal a) = Mcatch (psBody o mi a) (psHandler o) := by
  cases a <;> rfl

/-- C8: the public entry point returns a bare Python boolean, not a
structured result.  An invalid signal yields `False`; a fully successful
pipeline yields `True`; there is no status/orderId/price structure and no
error-code enumeration anywhere in the result type (`Except PyExc Bool`).
This contradicts `webhook.py`, which imports a non-existent `execute_order`
from `bot` and reads `result['status']` / `result['code']` from it. -/
theorem C8_process_signal_returns_bare_boolean :
    (runPS (fun _ => Except.ok 1) { amountStep := 1, minAmount := 1 } "hold" none).2
        = Except.ok false
    ∧ (runPS (fun n => if n = 0 then Except.ok 1 else if n = 1 then Except.ok 1000
          else Except.ok 7) { amountStep := 1, minAmount := 1 } "buy" none).2
        = Except.ok true := by
  with_unfolding_all decide

/-- When the protective-order submission fails, `_place_oco_order` always
raises (re-raising the original failure or the close failure), and its trace
shows the Emergency Closer invoked directly after the failed submission. -/
theorem place_oco_fail (o : Oracle) (amount entry_price : ℚ) (s : St) (g : GErr)
    (ho : o s.ctr = Except.error g) :
    (∃ e', (place_oco_order o amount entry_price s).2 = Except.error e')
    ∧ ∃ dret, (place_oco_order o amount entry_price s).1.trace
        = s.trace ++ [Event.callOrder Ctx.oco (ocoReq amount entry_price) (Except.error g),
                      Event.closeStart] ++ dret := by
  obtain ⟨dret, hret, _, _, _⟩ :=
    opSpec_withRetry (opSpec_closeBody (P := fun _ => true) (o := o)
      (fun _ => rfl) (fun _ => rfl) (fun _ _ _ => rfl) (fun _ => rfl)) 4
      { pos := s.pos, ctr := s.ctr + 1,
        trace := s.trace ++ [Event.callOrder Ctx.oco (ocoReq amount entry_price)
                  (Except.error g)] ++ [Event.closeStart] }
  rcases hwc : withRetry (closeBody o) 4
      { pos := s.pos, ctr := s.ctr + 1,
        trace := s.trace ++ [Event.callOrder Ctx.oco (ocoReq amount entry_price)
                  (Except.error g)] ++ [Event.closeStart] } with ⟨s7, r7⟩
  replace hret : s7.trace
      = s.trace ++ [Event.callOrder Ctx.oco (ocoReq amount entry_price) (Except.error g),
                    Event.closeStart] ++ dret := by
    rw [hwc] at hret
    simpa using hret
  have hpl : place_oco_order o amount entry_price s
      = match withRetry (closeBody o) 4
          { pos := s.pos, ctr := s.ctr + 1,
            trace := s.trace ++ [Event.callOrder Ctx.oco (ocoReq amount entry_price)
                      (Except.error g)] ++ [Event.closeStart] } with
        | (s'', Except.ok _) => (s'', Except.error (toPyExc g))
        | (s'', Except.error e2) => (s'', Except.error e2) := by
    simp [place_oco_order, create_order, gatewayCall, ho, emergency_close]
  rw [hwc] at hpl
  cases r7 with
  | ok u => exact ⟨⟨toPyExc g, by rw [hpl]⟩, dret, by rw [hpl]; exact hret⟩
  | error e2 => exact ⟨⟨e2, by rw [hpl]⟩, dret, by rw [hpl]; exact hret⟩

/-- Oracle for the C6 counterexample, run A: entry fills, the bracket
submission fails with an exchange error, the emergency close succeeds. -/
def oracleC6A : Oracle := fun n =>
  if n = 0 then Except.ok 1 else if n = 1 then Except.ok 1000
  else if n = 2 then Except.ok 7 else if n = 3 then Except.error GErr.exchange
  else if n = 4 then Except.ok 1000 else if n = 5 then Except.ok 1
  else Except.ok 9

/-- Oracle for the C6 counterexample, run B: the balance fetch fails with
`InsufficientFunds`; nothing is ever submitted. -/
def oracleC6B : Oracle := fun n =>
  if n = 0 then Except.ok 1 else Except.error GErr.insufficientFunds

set_option maxRecDepth 100000

/-- Counterexample to C6: run A opens a real position (successful 899-unit
entry order in the trace) and then fails the bracket submission; run B fails
outright with no order ever submitted.  Both runs return the identical bare
`False`: the result does not distinguish the partial-success outcome from a
total failure. -/
theorem C6_counterexample :
    (runPS oracleC6A { amountStep := 1, minAmount := 1 } "buy" none).2 = Except.ok false
    ∧ (runPS oracleC6B { amountStep := 1, minAmount := 1 } "buy" none).2 = Except.ok false
    ∧ Event.callOrder Ctx.entry (marketReq Side.buy 899) (Except.ok 7)
        ∈ (runPS oracleC6A { amountStep := 1, minAmount := 1 } "buy" none).1.trace
    ∧ Event.callOrder Ctx.oco (ocoReq 899 1) (Except.error GErr.exchange)
        ∈ (runPS oracleC6A { amountStep := 1, minAmount := 1 } "buy" none).1.trace
    ∧ hasOkOrder (runPS oracleC6B { amountStep := 1, minAmount := 1 } "buy" none).1.trace
        = false := by
  with_unfolding_all decide

/-- C6 amended: when the entry order fills and the subsequent bracket
submission fails, the entry fill is not rolled back (the successful entry
event and the position assignment remain in the trace; no cancellation
exists in the engine) and the Emergency Closer is invoked immediately after
the failed submission; but the run returns the same bare `False` as a total
failure (or re-raises), distinguishing nothing. -/
theorem C6_amended_bracket_failure_triggers_close_but_result_is_bare
    (o : Oracle) (mi : MarketInfo) (pos : Option Side) (a : Side)
    (p amt risk oid : ℚ) (g : GErr)
    (hcc : (checkConflict o a (initSt pos)).2 = Except.ok ())
    (hpr : (get_current_price o (checkConflict o a (initSt pos)).1).2 = Except.ok p)
    (hsz : (calculate_position_size o mi p
        (get_current_price o (checkConflict o a (initSt pos)).1).1).2 = Except.ok (amt, risk))
    (hen : o (calculate_position_size o mi p
        (get_current_price o (checkConflict o a (initSt pos)).1).1).1.ctr = Except.ok oid)
    (hoco : o ((calculate_position_size o mi p
        (get_current_price o (checkConflict o a (initSt pos)).1).1).1.ctr + 1)
        = Except.error g) :
    (∃ rest,
      (runPS o mi (sideSignal a) pos).1.trace
        = (calculate_position_size o mi p
            (get_current_price o (checkConflict o a (initSt pos)).1).1).1.trace
          ++ [Event.callOrder Ctx.entry (marketReq a amt) (Except.ok oid),
              Event.setPosition (calculate_position_size o mi p
                (get_current_price o (checkConflict o a (initSt pos)).1).1).1.pos (some a),
              Event.callOrder Ctx.oco (ocoReq amt p) (Except.error g),
              Event.closeStart]
          ++ rest)
    ∧ ((runPS o mi (sideSignal a) pos).2 = Except.ok false
        ∨ ∃ e, (runPS o mi (sideSignal a) pos).2 = Except.error e) := by
  rcases hc : checkConflict o a (initSt pos) with ⟨s1, rc⟩
  replace hcc : rc = Except.ok () := by rw [hc] at hcc; exact hcc
  subst hcc
  replace hpr : (get_current_price o s1).2 = Except.ok p := by rw [hc] at hpr; exact hpr
  rcases hp2 : get_current_price o s1 with ⟨s2, r2⟩
  replace hpr : r2 = Except.ok p := by rw [hp2] at hpr; exact hpr
  subst hpr
  replace hsz : (calculate_position_size o mi p s2).2 = Except.ok (amt, risk) := by
    rw [hc] at hsz
    rw [show (get_current_price o s1).1 = s2 by rw [hp2]] at hsz
    exact hsz
  rcases hs3 : calculate_position_size o mi p s2 with ⟨s3, r3⟩
  replace hsz : r3 = Except.ok (amt, risk) := by rw [hs3] at hsz; exact hsz
  subst hsz
  replace hen : o s3.ctr = Except.ok oid := by
    rw [hc, show (get_current_price o s1).1 = s2 by rw [hp2],
        show (calculate_position_size o mi p s2).1 = s3 by rw [hs3]] at hen
    exact hen
  replace hoco : o (s3.ctr + 1) = Except.error g := by
    rw [hc, show (get_current_price o s1).1 = s2 by rw [hp2],
        show (calculate_position_size o mi p s2).1 = s3 by rw [hs3]] at hoco
    exact hoco
  have hbody : psBody o mi a (initSt pos)
      = Mbind (place_oco_order o amt p) (fun _ => Mpure true)
          { pos := some a, ctr := s3.ctr + 1,
            trace := s3.trace
              ++ [Event.callOrder Ctx.entry (marketReq a amt) (Except.ok oid),
                  Event.setPosition s3.pos (some a)] } := by
    simp [psBody, Mbind, hc, hp2, hs3, execute_market_order, create_order, gatewayCall,
      hen, setPos]
  obtain ⟨⟨e1, herr⟩, ⟨dret, htrace⟩⟩ := place_oco_fail o amt p
    { pos := some a, ctr := s3.ctr + 1,
      trace := s3.trace
        ++ [Event.callOrder Ctx.entry (marketReq a amt) (Except.ok oid),
            Event.setPosition s3.pos (some a)] } g hoco
  rcases hpo : place_oco_order o amt p
      { pos := some a, ctr := s3.ctr + 1,
        trace := s3.trace
          ++ [Event.callOrder Ctx.entry (marketReq a amt) (Except.ok oid),
              Event.setPosition s3.pos (some a)] } with ⟨sP, rP⟩
  replace herr : rP = Except.error e1 := by rw [hpo] at herr; exact herr
  subst herr
  replace htrace : sP.trace
      = s3.trace
          ++ [Event.callOrder Ctx.entry (marketReq a amt) (Except.ok oid),
              Event.setPosition s3.pos (some a),
              Event.callOrder Ctx.oco (ocoReq amt p) (Except.error g),
              Event.closeStart] ++ dret := by
    rw [hpo] at htrace
    simpa using htrace
  have hbody2 : psBody o mi a (initSt pos) = (sP, Except.error e1) := by
    rw [hbody]
    simp [Mbind, hpo]
  have hrun : runPS o mi (sideSignal a) pos = psHandler o e1 sP := by
    rw [runPS, process_signal_eq]
    simp [Mcatch, hbody2]
  cases e1 with
  | network =>
    refine ⟨⟨dret, ?_⟩, Or.inr ⟨PyExc.network, ?_⟩⟩
    · rw [hrun]
      simp [psHandler, Mraise, htrace]
    · rw [hrun]
      simp [psHandler, Mraise]
  | insufficientFunds =>
    refine ⟨⟨dret, ?_⟩, Or.inl ?_⟩
    · rw [hrun]
      simp [psHandler, Mpure, htrace]
    · rw [hrun]
      simp [psHandler, Mpure]
  | exchange =>
    obtain ⟨d2, htr2, _, _, _⟩ := opSpec_emergency_close_true o sP
    rcases hec : emergency_close o sP with ⟨s8, r8⟩
    replace htr2 : s8.trace = sP.trace ++ d2 := by rw [hec] at htr2; exact htr2
    cases r8 with
    | ok u =>
      refine ⟨⟨dret ++ d2, ?_⟩, Or.inl ?_⟩
      · rw [hrun]
        simp [psHandler, hec, htr2, htrace]
      · rw [hrun]
        simp [psHandler, hec]
    | error e2 =>
      refine ⟨⟨dret ++ d2, ?_⟩, Or.inr ⟨e2, ?_⟩⟩
      · rw [hrun]
        simp [psHandler, hec, htr2, htrace]
      · rw [hrun]
        simp [psHandler, hec]
  | valueError =>
    obtain ⟨d2, htr2, _, _, _⟩ := opSpec_emergency_close_true o sP
    rcases hec : emergency_close o sP with ⟨s8, r8⟩
    replace htr2 : s8.trace = sP.trace ++ d2 := by rw [hec] at htr2; exact htr2
    cases r8 with
    | ok u =>
      refine ⟨⟨dret ++ d2, ?_⟩, Or.inl ?_⟩
      · rw [hrun]
        simp [psHandler, hec, htr2, htrace]
      · rw [hrun]
        simp [psHandler, hec]
    | error e2 =>
      refine ⟨⟨dret ++ d2, ?_⟩, Or.inr ⟨e2, ?_⟩⟩
      · rw [hrun]
        simp [psHandler, hec, htr2, htrace]
      · rw [hrun]
        simp [psHandler, hec]

/-- Oracle for the C6 amended witness: price 9/1000, balance 1000/999 (so
the sized amount is exactly 100), entry filled with id 7, every later call
failing with an exchange error (the bracket submission in particular). -/
def oracleC6W : Oracle := fun n =>
  if n = 0 then Except.ok (9/1000) else if n = 1 then Except.ok (1000/999)
  else if n = 2 then Except.ok 7 else Except.error GErr.exchange

/-- Witness for the amended C6. -/
theorem C6_amended_bracket_failure_triggers_close_but_result_is_bare_witness :
    (∃ rest,
      (runPS oracleC6W { amountStep := 1, minAmount := 1 } (sideSignal Side.buy) none).1.trace
        = (calculate_position_size oracleC6W { amountStep := 1, minAmount := 1 } (9/1000)
            (get_current_price oracleC6W
              (checkConflict oracleC6W Side.buy (initSt none)).1).1).1.trace
          ++ [Event.callOrder Ctx.entry (marketReq Side.buy 100) (Except.ok 7),
              Event.setPosition (calculate_position_size oracleC6W
                  { amountStep := 1, minAmount := 1 } (9/1000)
                  (get_current_price oracleC6W
                    (checkConflict oracleC6W Side.buy (initSt none)).1).1).1.pos
                (some Side.buy),
              Event.callOrder Ctx.oco (ocoReq 100 (9/1000)) (Except.error GErr.exchange),
              Event.closeStart]
          ++ rest)
    ∧ ((runPS oracleC6W { amountStep := 1, minAmount := 1 } (sideSignal Side.buy) none).2
          = Except.ok false
        ∨ ∃ e, (runPS oracleC6W { amountStep := 1, minAmount := 1 }
            (sideSignal Side.buy) none).2 = Except.error e) := by
  have h1 : checkConflict oracleC6W Side.buy (initSt none) = (initSt none, Except.ok ()) := by
    with_unfolding_all decide
  have h2 : get_current_price oracleC6W (initSt none)
      = ({ pos := none, ctr := 1, trace := [Event.callTicker (Except.ok (9/1000))] },
         Except.ok (9/1000)) := by
    with_unfolding_all decide
  have h3 : calculate_position_size oracleC6W { amountStep := 1, minAmount := 1 } (9/1000)
      { pos := none, ctr := 1, trace := [Event.callTicker (Except.ok (9/1000))] }
      = ({ pos := none, ctr := 2,
           trace := [Event.callTicker (Except.ok (9/1000)),
                     Event.callBalance (Except.ok (1000/999))] },
         Except.ok (100, 9/10)) := by
    with_unfolding_all decide
  exact C6_amended_bracket_failure_triggers_close_but_result_is_bare
    oracleC6W { amountStep := 1, minAmount := 1 } none Side.buy (9/1000) 100 (9/10) 7
    GErr.exchange
    (by simp only [h1])
    (by simp only [h1, h2])
    (by simp only [h1, h2, h3])
    (by simp only [h1, h2, h3]; with_unfolding_all decide)
    (by simp only [h1, h2, h3]; with_unfolding_all decide)

/-- Errors of a retried action propagate unchanged in kind. -/
theorem withRetry_err_lift {α : Type} {m : M α} {P : PyExc → Prop}
    (hm : ∀ s e, (m s).2 = Except.error e → P e) :
    ∀ (n : Nat) (s : St) (e : PyExc), (withRetry m n s).2 = Except.error e → P e := by
  intro n
  induction n with
  | zero => exact hm
  | succ n ih =>
    intro s e h
    rcases hms : m s with ⟨s', r⟩
    match r with
    | Except.error PyExc.network =>
      have heq : withRetry m (n + 1) s = withRetry m n s' := by simp [withRetry, hms]
      rw [heq] at h
      exact ih s' e h
    | Except.error PyExc.insufficientFunds =>
      have heq : withRetry m (n + 1) s = (s', Except.error PyExc.insufficientFunds) := by
        simp [withRetry, hms]
      rw [heq] at h
      have : e = PyExc.insufficientFunds := by
        have := h.symm
        injection this
      subst this
      exact hm s _ (by rw [hms])
    | Except.error PyExc.exchange =>
      have heq : withRetry m (n + 1) s = (s', Except.error PyExc.exchange) := by
        simp [withRetry, hms]
      rw [heq] at h
      have : e = PyExc.exchange := by
        have := h.symm
        injection this
      subst this
      exact hm s _ (by rw [hms])
    | Except.error PyExc.valueError =>
      have heq : withRetry m (n + 1) s = (s', Except.error PyExc.valueError) := by
        simp [withRetry, hms]
      rw [heq] at h
      have : e = PyExc.valueError := by
        have := h.symm
        injection this
      subst this
      exact hm s _ (by rw [hms])
    | Except.ok a =>
      have heq : withRetry m (n + 1) s = (s', Except.ok a) := by simp [withRetry, hms]
      rw [heq] at h
      exact absurd h (by simp)

theorem get_available_balance_err {o : Oracle} {s : St} {e : PyExc}
    (h : (get_available_balance o s).2 = Except.error e) : ∃ g, e = toPyExc g := by
  have hbody : ∀ (s' : St) (e' : PyExc),
      ((Mbind (fetch_balance o) (fun b => Mpure (b * (999/1000)))) s').2 = Except.error e' →
        ∃ g, e' = toPyExc g := by
    intro s' e' hh
    cases hx : o s'.ctr with
    | ok v =>
      revert hh
      simp [Mbind, fetch_balance, gatewayCall, hx, Mpure]
    | error g =>
      refine ⟨g, ?_⟩
      revert hh
      simp [Mbind, fetch_balance, gatewayCall, hx]
      intro hh
      exact hh.symm
  exact withRetry_err_lift hbody 2 s e h

/-- Number of sizing rejections in a trace. -/
def countSizeRejects (t : List Event) : Nat := t.countP isSizeReject

/-- Oracle for the C4 counterexample and witness: price 1, balance 1000/999
(so the fee-adjusted balance is exactly 1 and the quantized amount is 0,
below the minimum of 1); later calls succeed. -/
def oracleC4 : Oracle := fun n =>
  if n = 0 then Except.ok 1 else if n = 1 then Except.ok (1000/999)
  else if n = 2 then Except.ok (1000/999) else if n = 3 then Except.ok 1
  else Except.ok 5

/-- Counterexample to C4: holding `buy` and receiving another `buy` signal,
the sizing fails below the minimum — and the generic exception handler then
invokes `_emergency_close`, which performs a balance fetch, a ticker fetch
and a flattening order submission, all after the sizing failure.  The claim
that no exchange call of any kind follows the sizing failure is false. -/
theorem C4_counterexample :
    runPS oracleC4 { amountStep := 1, minAmount := 1 } "buy" (some Side.buy)
      = ({ pos := none, ctr := 5,
           trace := [Event.callTicker (Except.ok 1),
                     Event.callBalance (Except.ok (1000/999)),
                     Event.sizeReject 0 1,
                     Event.closeStart,
                     Event.callBalance (Except.ok (1000/999)),
                     Event.callTicker (Except.ok 1),
                     Event.callOrder Ctx.flatten (marketReq Side.sell 1) (Except.ok 5),
                     Event.setPosition (some Side.buy) none] },
         Except.ok false) := by
  with_unfolding_all decide

/-- C4 amended: when sizing fails below the market minimum, the run submits
no entry order, terminates with `False` (or an exception from the fallback
close) and never retries the sizing (exactly one rejection in the trace);
when no position is held at the failure the run makes no exchange call
after the rejection (only the no-op close marker follows), but when a
position is held the generic handler invokes the emergency close, which
does make exchange calls. -/
theorem C4_amended_insufficient_size_aborts
    (o : Oracle) (mi : MarketInfo) (pos : Option Side) (a : Side) (p : ℚ)
    (hcc : (checkConflict o a (initSt pos)).2 = Except.ok ())
    (hpr : (get_current_price o (checkConflict o a (initSt pos)).1).2 = Except.ok p)
    (hsz : (calculate_position_size o mi p
        (get_current_price o (checkConflict o a (initSt pos)).1).1).2
        = Except.error PyExc.valueError) :
    noEntryOrders (runPS o mi (sideSignal a) pos).1.trace = true
    ∧ countSizeRejects (runPS o mi (sideSignal a) pos).1.trace = 1
    ∧ ((runPS o mi (sideSignal a) pos).2 = Except.ok false
        ∨ ∃ e, (runPS o mi (sideSignal a) pos).2 = Except.error e)
    ∧ ((calculate_position_size o mi p
          (get_current_price o (checkConflict o a (initSt pos)).1).1).1.pos ≠ none
        ∨ (runPS o mi (sideSignal a) pos).1.trace
            = (calculate_position_size o mi p
                (get_current_price o (checkConflict o a (initSt pos)).1).1).1.trace
              ++ [Event.closeStart]) := by
  have P4ne : ∀ d : List Event, d.all (fun e => !isEntry e && !isSizeReject e) = true →
      d.all (fun e => !isEntry e) = true := by
    intro d hd
    rw [List.all_eq_true] at hd ⊢
    intro x hx
    exact ((Bool.and_eq_true _ _).mp (hd x hx)).1
  have P4sr : ∀ d : List Event, d.all (fun e => !isEntry e && !isSizeReject e) = true →
      List.countP isSizeReject d = 0 := by
    intro d hd
    rw [List.all_eq_true] at hd
    rw [List.countP_eq_zero]
    intro x hx
    have := ((Bool.and_eq_true _ _).mp (hd x hx)).2
    simpa using this
  obtain ⟨d0, ht0, _, _, hall0⟩ := @opSpec_checkConflict
    (fun e => !isEntry e && !isSizeReject e) o a
    (fun _ => rfl) (fun _ => rfl) (fun _ _ _ => rfl) (fun _ => rfl) rfl (initSt pos)
  rcases hc : checkConflict o a (initSt pos) with ⟨s1, rc⟩
  replace hcc : rc = Except.ok () := by rw [hc] at hcc; exact hcc
  subst hcc
  replace ht0 : s1.trace = d0 := by rw [hc] at ht0; simpa [initSt] using ht0
  replace hpr : (get_current_price o s1).2 = Except.ok p := by rw [hc] at hpr; exact hpr
  obtain ⟨d1, ht1, _, _, hall1⟩ := opSpec_get_current_price
    (P := fun e => !isEntry e && !isSizeReject e) (o := o) (fun _ => rfl) s1
  rcases hp2 : get_current_price o s1 with ⟨s2, r2⟩
  replace hpr : r2 = Except.ok p := by rw [hp2] at hpr; exact hpr
  subst hpr
  replace ht1 : s2.trace = s1.trace ++ d1 := by rw [hp2] at ht1; exact ht1
  replace hsz : (calculate_position_size o mi p s2).2 = Except.error PyExc.valueError := by
    rw [hc, show (get_current_price o s1).1 = s2 by rw [hp2]] at hsz
    exact hsz
  obtain ⟨d2, ht2, _, _, hall2⟩ := opSpec_get_available_balance
    (P := fun e => !isEntry e && !isSizeReject e) (o := o) (fun _ => rfl) s2
  rcases hgb : get_available_balance o s2 with ⟨sb, rb⟩
  replace ht2 : sb.trace = s2.trace ++ d2 := by rw [hgb] at ht2; exact ht2
  cases rb with
  | error e0 =>
    exfalso
    have hcalc : (calculate_position_size o mi p s2).2 = Except.error e0 := by
      simp [calculate_position_size, hgb]
    rw [hsz] at hcalc
    have he0 : e0 = PyExc.valueError := by injection hcalc.symm
    subst he0
    obtain ⟨g, hg⟩ := get_available_balance_err (by rw [hgb])
    cases g <;> simp [toPyExc] at hg
  | ok bv =>
    by_cases hlt : sizeAmount bv p mi.amountStep < mi.minAmount
    · have hcalc : calculate_position_size o mi p s2
          = ({ sb with trace := sb.trace
                ++ [Event.sizeReject (sizeAmount bv p mi.amountStep) mi.minAmount] },
             Except.error PyExc.valueError) := by
        simp [calculate_position_size, hgb, calcSize, hlt]
      have hbody : psBody o mi a (initSt pos)
          = ({ sb with trace := sb.trace
                ++ [Event.sizeReject (sizeAmount bv p mi.amountStep) mi.minAmount] },
             Except.error PyExc.valueError) := by
        simp [psBody, Mbind, hc, hp2, hcalc]
      obtain ⟨d3, ht3, _, _, hall3⟩ := opSpec_emergency_close
        (P := fun e => !isEntry e && !isSizeReject e) (o := o)
        (fun _ => rfl) (fun _ => rfl) (fun _ _ _ => rfl) (fun _ => rfl) rfl
        { sb with trace := sb.trace
            ++ [Event.sizeReject (sizeAmount bv p mi.amountStep) mi.minAmount] }
      rcases hec : emergency_close o
          { sb with trace := sb.trace
              ++ [Event.sizeReject (sizeAmount bv p mi.amountStep) mi.minAmount] }
        with ⟨s4, r4⟩
      replace ht3 : s4.trace = (sb.trace
          ++ [Event.sizeReject (sizeAmount bv p mi.amountStep) mi.minAmount]) ++ d3 := by
        rw [hec] at ht3
        simpa using ht3
      have hrun : runPS o mi (sideSignal a) pos = psHandler o PyExc.valueError
          { sb with trace := sb.trace
              ++ [Event.sizeReject (sizeAmount bv p mi.amountStep) mi.minAmount] } := by
        rw [runPS, process_signal_eq]
        simp [Mcatch, hbody]
      have hsr1 : (fun e => !isEntry e)
          (Event.sizeReject (sizeAmount bv p mi.amountStep) mi.minAmount) = true := rfl
      have hnoE : noEntryOrders s4.trace = true := by
        rw [noEntryOrders, ht3, ht2, ht1, ht0]
        simp only [List.all_append, List.all_cons, List.all_nil, P4ne d0 hall0,
          P4ne d1 hall1, P4ne d2 hall2, P4ne d3 hall3, hsr1, Bool.and_true, Bool.true_and,
          Bool.and_self]
      have hcnt : countSizeRejects s4.trace = 1 := by
        rw [countSizeRejects, ht3, ht2, ht1, ht0]
        simp only [List.countP_append, P4sr d0 hall0, P4sr d1 hall1, P4sr d2 hall2,
          P4sr d3 hall3]
        rfl
      cases r4 with
      | ok u =>
        have hres : runPS o mi (sideSignal a) pos = (s4, Except.ok false) := by
          rw [hrun]
          simp [psHandler, hec]
        refine ⟨by rw [hres]; exact hnoE, by rw [hres]; exact hcnt,
          Or.inl (by rw [hres]), ?_⟩
        by_cases hpn : sb.pos = none
        · right
          have hclose : emergency_close o
              { sb with trace := sb.trace
                  ++ [Event.sizeReject (sizeAmount bv p mi.amountStep) mi.minAmount] }
              = ({ sb with trace := (sb.trace
                  ++ [Event.sizeReject (sizeAmount bv p mi.amountStep) mi.minAmount])
                  ++ [Event.closeStart] }, Except.ok ()) := by
            simp [emergency_close, withRetry, closeBody, hpn]
          rw [hclose] at hec
          have hs4 : s4 = { sb with trace := (sb.trace
              ++ [Event.sizeReject (sizeAmount bv p mi.amountStep) mi.minAmount])
              ++ [Event.closeStart] } := by
            have hpe := hec.symm
            rw [Prod.mk.injEq] at hpe
            exact hpe.1
          rw [hres, hs4]
          simp [hcalc]
        · left
          simp only [hcalc]
          exact hpn
      | error e2 =>
        have hres : runPS o mi (sideSignal a) pos = (s4, Except.error e2) := by
          rw [hrun]
          simp [psHandler, hec]
        refine ⟨by rw [hres]; exact hnoE, by rw [hres]; exact hcnt,
          Or.inr ⟨e2, by rw [hres]⟩, ?_⟩
        by_cases hpn : sb.pos = none
        · exfalso
          have hclose : emergency_close o
              { sb with trace := sb.trace
                  ++ [Event.sizeReject (sizeAmount bv p mi.amountStep) mi.minAmount] }
              = ({ sb with trace := (sb.trace
                  ++ [Event.sizeReject (sizeAmount bv p mi.amountStep) mi.minAmount])
                  ++ [Event.closeStart] }, Except.ok ()) := by
            simp [emergency_close, withRetry, closeBody, hpn]
          rw [hclose] at hec
          have hpe := hec.symm
          rw [Prod.mk.injEq] at hpe
          exact absurd hpe.2 (by simp)
        · left
          simp only [hcalc]
          exact hpn
    · exfalso
      have hcalc : (calculate_position_size o mi p s2).2 = Except.ok
          (sizeAmount bv p mi.amountStep, bv * riskFraction) := by
        simp [calculate_position_size, hgb, calcSize, hlt]
      rw [hsz] at hcalc
      exact absurd hcalc.symm (by simp)

/-- Witness for the amended C4: holding `buy`, same-side `buy` signal,
price 1, fee-adjusted balance 1 — quantized amount 0 is below the minimum
1. -/
theorem C4_amended_insufficient_size_aborts_witness :
    noEntryOrders (runPS oracleC4 { amountStep := 1, minAmount := 1 }
        (sideSignal Side.buy) (some Side.buy)).1.trace = true
    ∧ countSizeRejects (runPS oracleC4 { amountStep := 1, minAmount := 1 }
        (sideSignal Side.buy) (some Side.buy)).1.trace = 1
    ∧ ((runPS oracleC4 { amountStep := 1, minAmount := 1 }
          (sideSignal Side.buy) (some Side.buy)).2 = Except.ok false
        ∨ ∃ e, (runPS oracleC4 { amountStep := 1, minAmount := 1 }
            (sideSignal Side.buy) (some Side.buy)).2 = Except.error e)
    ∧ ((calculate_position_size oracleC4 { amountStep := 1, minAmount := 1 } 1
          (get_current_price oracleC4
            (checkConflict oracleC4 Side.buy (initSt (some Side.buy))).1).1).1.pos ≠ none
        ∨ (runPS oracleC4 { amountStep := 1, minAmount := 1 }
            (sideSignal Side.buy) (some Side.buy)).1.trace
            = (calculate_position_size oracleC4 { amountStep := 1, minAmount := 1 } 1
                (get_current_price oracleC4
                  (checkConflict oracleC4 Side.buy
                    (initSt (some Side.buy))).1).1).1.trace
              ++ [Event.closeStart]) := by
  have h1 : checkConflict oracleC4 Side.buy (initSt (some Side.buy))
      = (initSt (some Side.buy), Except.ok ()) := by
    with_unfolding_all decide
  have h2 : get_current_price oracleC4 (initSt (some Side.buy))
      = ({ pos := some Side.buy, ctr := 1,
           trace := [Event.callTicker (Except.ok 1)] }, Except.ok 1) := by
    with_unfolding_all decide
  exact C4_amended_insufficient_size_aborts oracleC4 { amountStep := 1, minAmount := 1 }
    (some Side.buy) Side.buy 1
    (by simp only [h1])
    (by simp only [h1, h2])
    (by simp only [h1, h2]; with_unfolding_all decide)

/-! ## Entry-order safety (claim C3) -/

theorem calculate_position_size_pos (o : Oracle) (mi : MarketInfo) (p : ℚ) (s : St) :
    (calculate_position_size o mi p s).1.pos = s.pos :=
  opSpec_pos_eq (opSpec_calculate_position_size (fun _ => rfl) (fun _ _ => rfl)) s

theorem checkConflict_ok_pos {o : Oracle} {a : Side} {s : St} {u : Unit}
    (h : (checkConflict o a s).2 = Except.ok u) :
    (checkConflict o a s).1.pos = none ∨ (checkConflict o a s).1.pos = some a := by
  cases hpos : s.pos with
  | none =>
    left
    simp [checkConflict, hpos]
  | some p =>
    by_cases hpa : p = a
    · right
      simp [checkConflict, hpos, hpa]
    · have hcc : checkConflict o a s = emergency_close o s := by
        simp [checkConflict, hpos, hpa]
      rw [hcc] at h ⊢
      left
      exact emergency_close_pos_ok h

theorem entrySafe_extend {pp : Option Side} {d dH : List Event}
    (h1 : entrySafeFrom pp d = true) (h2 : dH.all (fun ev => !isEntry ev) = true) :
    entrySafeFrom pp (d ++ dH) = true := by
  rw [entrySafeFrom_append, h1, entrySafeFrom_of_noEntry h2, Bool.and_self]

/-- In every `psBody` run from a fresh state, every entry order is submitted
while the position record is empty or already on the signal side. -/
theorem psBody_entrySafe (o : Oracle) (mi : MarketInfo) (a : Side) (pos : Option Side) :
    ∀ (sB : St) (rB : Except PyExc Bool), psBody o mi a (initSt pos) = (sB, rB) →
      entrySafeFrom pos sB.trace = true := by
  intro sB rB hcb
  have step : ∀ (s s' : St) (d : List Event), s'.trace = s.trace ++ d →
      s'.pos = posAfter s.pos d → posAfter pos s.trace = s.pos →
        posAfter pos s'.trace = s'.pos := by
    intro s s' d ht hp hPA
    rw [ht, posAfter_append, hPA, hp]
  -- stage 0
  have hPA0 : posAfter pos (initSt pos).trace = (initSt pos).pos := rfl
  -- stage 1: the conflict check
  obtain ⟨d0, ht0, hp0, _, hall0⟩ := @opSpec_checkConflict
    (fun ev => !isEntry ev) o a
    (fun _ => rfl) (fun _ => rfl) (fun _ _ _ => rfl) (fun _ => rfl) rfl (initSt pos)
  rcases hc : checkConflict o a (initSt pos) with ⟨s1, r1⟩
  replace ht0 : s1.trace = (initSt pos).trace ++ d0 := by rw [hc] at ht0; exact ht0
  replace hp0 : s1.pos = posAfter (initSt pos).pos d0 := by rw [hc] at hp0; exact hp0
  have hPA1 : posAfter pos s1.trace = s1.pos := step _ _ _ ht0 hp0 hPA0
  have hsafe1 : entrySafeFrom pos s1.trace = true := by
    rw [ht0]
    exact entrySafeFrom_of_noEntry (by simp [initSt, hall0]) pos
  cases r1 with
  | error e =>
    have hval : psBody o mi a (initSt pos) = (s1, Except.error e) := by
      simp [psBody, Mbind, hc]
    rw [hcb] at hval
    have hpe := hval
    rw [Prod.mk.injEq] at hpe
    rw [hpe.1]
    exact hsafe1
  | ok u1 =>
    have hpos1 : s1.pos = none ∨ s1.pos = some a := by
      have := checkConflict_ok_pos (o := o) (a := a) (s := initSt pos) (u := u1)
        (by rw [hc])
      rw [hc] at this
      exact this
    -- stage 2: ticker
    obtain ⟨d1, ht1, hp1, _, hall1⟩ := opSpec_get_current_price
      (P := fun ev => !isEntry ev) (o := o) (fun _ => rfl) s1
    rcases hp2 : get_current_price o s1 with ⟨s2, r2⟩
    replace ht1 : s2.trace = s1.trace ++ d1 := by rw [hp2] at ht1; exact ht1
    replace hp1 : s2.pos = posAfter s1.pos d1 := by rw [hp2] at hp1; exact hp1
    have hPA2 : posAfter pos s2.trace = s2.pos := step _ _ _ ht1 hp1 hPA1
    have hsafe2 : entrySafeFrom pos s2.trace = true := by
      rw [ht1]
      exact entrySafe_extend hsafe1 hall1
    have hpos2 : s2.pos = s1.pos := by
      have := get_current_price_pos o s1
      rw [hp2] at this
      exact this
    cases r2 with
    | error e =>
      have hval : psBody o mi a (initSt pos) = (s2, Except.error e) := by
        simp [psBody, Mbind, hc, hp2]
      rw [hcb] at hval
      have hpe := hval
      rw [Prod.mk.injEq] at hpe
      rw [hpe.1]
      exact hsafe2
    | ok price =>
      -- stage 3: sizing
      obtain ⟨d2, ht2, hp2b, _, hall2⟩ := @opSpec_calculate_position_size
        (fun ev => !isEntry ev) o mi price
        (fun _ => rfl) (fun _ _ => rfl) s2
      rcases hs3 : calculate_position_size o mi price s2 with ⟨s3, r3⟩
      replace ht2 : s3.trace = s2.trace ++ d2 := by rw [hs3] at ht2; exact ht2
      replace hp2b : s3.pos = posAfter s2.pos d2 := by rw [hs3] at hp2b; exact hp2b
      have hPA3 : posAfter pos s3.trace = s3.pos := step _ _ _ ht2 hp2b hPA2
      have hsafe3 : entrySafeFrom pos s3.trace = true := by
        rw [ht2]
        exact entrySafe_extend hsafe2 hall2
      have hpos3 : s3.pos = s1.pos := by
        have := calculate_position_size_pos o mi price s2
        rw [hs3] at this
        rw [this, hpos2]
      cases r3 with
      | error e =>
        have hval : psBody o mi a (initSt pos) = (s3, Except.error e) := by
          simp [psBody, Mbind, hc, hp2, hs3]
        rw [hcb] at hval
        have hpe := hval
        rw [Prod.mk.injEq] at hpe
        rw [hpe.1]
        exact hsafe3
      | ok ar =>
        -- stage 4: the entry order
        have hstep4 : ∀ out : Except GErr ℚ, entryStep s3.pos
            (Event.callOrder Ctx.entry (marketReq a ar.1) out) = true := by
          intro out
          rcases hpos1 with hn | ha2
          · simp [entryStep, marketReq, hpos3, hn]
          · simp [entryStep, marketReq, hpos3, ha2]
        have hsafe4 : ∀ out : Except GErr ℚ, entrySafeFrom pos
            (s3.trace ++ [Event.callOrder Ctx.entry (marketReq a ar.1) out]) = true := by
          intro out
          rw [entrySafeFrom_append, hsafe3, hPA3]
          simp [entrySafeFrom, hstep4 out]
        cases ho4 : o s3.ctr with
        | error g =>
          have hval : psBody o mi a (initSt pos)
              = ({ s3 with ctr := s3.ctr + 1,
                           trace := s3.trace ++
                             [Event.callOrder Ctx.entry (marketReq a ar.1)
                               (Except.error g)] },
                 Except.error (toPyExc g)) := by
            simp [psBody, Mbind, hc, hp2, hs3, execute_market_order, create_order,
              gatewayCall, ho4]
          rw [hcb] at hval
          have hpe := hval
          rw [Prod.mk.injEq] at hpe
          rw [hpe.1]
          exact hsafe4 (Except.error g)
        | ok oid =>
          -- entry filled: position set, protective order follows
          obtain ⟨d5, ht5, _, _, hall5⟩ := @opSpec_place_oco_order
            (fun ev => !isEntry ev) o ar.1 price
            (fun _ => rfl) (fun _ => rfl) (fun _ => rfl) (fun _ _ _ => rfl)
            (fun _ => rfl) rfl
            { pos := some a, ctr := s3.ctr + 1,
              trace := s3.trace ++
                [Event.callOrder Ctx.entry (marketReq a ar.1) (Except.ok oid),
                 Event.setPosition s3.pos (some a)] }
          rcases hoc : place_oco_order o ar.1 price
              { pos := some a, ctr := s3.ctr + 1,
                trace := s3.trace ++
                  [Event.callOrder Ctx.entry (marketReq a ar.1) (Except.ok oid),
                   Event.setPosition s3.pos (some a)] } with ⟨s6, r6⟩
          replace ht5 : s6.trace = (s3.trace
              ++ [Event.callOrder Ctx.entry (marketReq a ar.1) (Except.ok oid),
                  Event.setPosition s3.pos (some a)]) ++ d5 := by
            rw [hoc] at ht5
            simpa using ht5
          have hsafe6 : entrySafeFrom pos s6.trace = true := by
            rw [ht5]
            refine entrySafe_extend ?_ hall5
            have : s3.trace
                ++ [Event.callOrder Ctx.entry (marketReq a ar.1) (Except.ok oid),
                    Event.setPosition s3.pos (some a)]
                = (s3.trace
                    ++ [Event.callOrder Ctx.entry (marketReq a ar.1) (Except.ok oid)])
                  ++ [Event.setPosition s3.pos (some a)] := by
              simp
            rw [this]
            refine entrySafe_extend (hsafe4 (Except.ok oid)) ?_
            simp [isEntry]
          cases r6 with
          | ok v =>
            have hval : psBody o mi a (initSt pos) = (s6, Except.ok true) := by
              simp [psBody, Mbind, Mpure, hc, hp2, hs3, execute_market_order, create_order,
                gatewayCall, ho4, setPos, hoc]
            rw [hcb] at hval
            have hpe := hval
            rw [Prod.mk.injEq] at hpe
            rw [hpe.1]
            exact hsafe6
          | error e =>
            have hval : psBody o mi a (initSt pos) = (s6, Except.error e) := by
              simp [psBody, Mbind, Mpure, hc, hp2, hs3, execute_market_order, create_order,
                gatewayCall, ho4, setPos, hoc]
            rw [hcb] at hval
            have hpe := hval
            rw [Prod.mk.injEq] at hpe
            rw [hpe.1]
            exact hsafe6

theorem runPS_entrySafe (o : Oracle) (mi : MarketInfo) (sig : String) (pos : Option Side) :
    entrySafeFrom pos (runPS o mi sig pos).1.trace = true := by
  have hH : ∀ (e : PyExc) (s : St), ∃ dH, (psHandler o e s).1.trace = s.trace ++ dH
      ∧ dH.all (fun ev => !isEntry ev) = true := by
    intro e s
    obtain ⟨dH, h1, _, _, h4⟩ := opSpec_psHandler (P := fun ev => !isEntry ev) (o := o)
      (fun _ => rfl) (fun _ => rfl) (fun _ _ _ => rfl) (fun _ => rfl) rfl e s
    exact ⟨dH, h1, h4⟩
  have main : ∀ a : Side,
      entrySafeFrom pos (Mcatch (psBody o mi a) (psHandler o) (initSt pos)).1.trace = true := by
    intro a
    rcases hcb : psBody o mi a (initSt pos) with ⟨sB, rB⟩
    have hBsafe := psBody_entrySafe o mi a pos sB rB hcb
    cases rB with
    | ok b =>
      have : (Mcatch (psBody o mi a) (psHandler o) (initSt pos)).1.trace = sB.trace := by
        simp [Mcatch, hcb]
      rw [this]
      exact hBsafe
    | error e =>
      obtain ⟨dH, h1, h2⟩ := hH e sB
      have : (Mcatch (psBody o mi a) (psHandler o) (initSt pos)).1.trace
          = sB.trace ++ dH := by
        simp [Mcatch, hcb, h1]
      rw [this]
      exact entrySafe_extend hBsafe h2
  by_cases hb : sig = "buy"
  · subst hb
    have heq : runPS o mi "buy" pos = Mcatch (psBody o mi Side.buy) (psHandler o)
        (initSt pos) := by
      rw [show ("buy" : String) = sideSignal Side.buy from rfl, runPS, process_signal_eq]
    rw [heq]
    exact main Side.buy
  · by_cases hs : sig = "sell"
    · subst hs
      have heq : runPS o mi "sell" pos = Mcatch (psBody o mi Side.sell) (psHandler o)
          (initSt pos) := by
        rw [show ("sell" : String) = sideSignal Side.sell from rfl, runPS, process_signal_eq]
      rw [heq]
      exact main Side.sell
    · simp [runPS, process_signal, hb, hs, entrySafeFrom, initSt]

/-- Oracle for the C3 counterexample: both emergency-close attempts fail on
their flattening order with an exchange error. -/
def oracleC3 : Oracle := fun n =>
  if n = 0 then Except.ok (1000/999) else if n = 1 then Except.ok 1
  else if n = 2 then Except.error GErr.exchange else if n = 3 then Except.ok (1000/999)
  else if n = 4 then Except.ok 1 else Except.error GErr.exchange

/-- Counterexample to C3: holding `buy`, a `sell` signal whose conflict
close fails (exchange error on the flattening order) aborts the run by
raising the raw exchange exception — there is no `PositionConflict` error
anywhere in the code; the trace also shows the handler's second close
attempt, and no entry order. -/
theorem C3_counterexample :
    runPS oracleC3 { amountStep := 1, minAmount := 1 } "sell" (some Side.buy)
      = ({ pos := some Side.buy, ctr := 6,
           trace := [Event.closeStart,
                     Event.callBalance (Except.ok (1000/999)),
                     Event.callTicker (Except.ok 1),
                     Event.callOrder Ctx.flatten (marketReq Side.sell 1)
                       (Except.error GErr.exchange),
                     Event.closeStart,
                     Event.callBalance (Except.ok (1000/999)),
                     Event.callTicker (Except.ok 1),
                     Event.callOrder Ctx.flatten (marketReq Side.sell 1)
                       (Except.error GErr.exchange)] },
         Except.error PyExc.exchange) := by
  with_unfolding_all decide

/-- C3 amended: in every run, a directional entry order is only ever
submitted while the position record is empty or already on the signal side
(`entrySafeFrom`); and when the held position conflicts with the signal and
the closing trade fails, the run aborts — returning `False` or re-raising
an exception, never a `PositionConflict` code — with no entry order
submitted. -/
theorem C3_amended_failed_close_aborts_without_entry :
    (∀ (o : Oracle) (mi : MarketInfo) (sig : String) (pos : Option Side),
      entrySafeFrom pos (runPS o mi sig pos).1.trace = true)
    ∧ (∀ (o : Oracle) (mi : MarketInfo) (p a : Side) (e : PyExc), p ≠ a →
        (runEC o (some p)).2 = Except.error e →
          noEntryOrders (runPS o mi (sideSignal a) (some p)).1.trace = true
          ∧ (runPS o mi (sideSignal a) (some p)).2 ≠ Except.ok true) := by
  constructor
  · exact runPS_entrySafe
  · intro o mi p a e hpa hec
    obtain ⟨dE, htE, _, _, hallE⟩ := opSpec_emergency_close
      (P := fun ev => !isEntry ev) (o := o)
      (fun _ => rfl) (fun _ => rfl) (fun _ _ _ => rfl) (fun _ => rfl) rfl
      (initSt (some p))
    rcases hce : emergency_close o (initSt (some p)) with ⟨sE, rE⟩
    replace hec : rE = Except.error e := by
      rw [runEC, hce] at hec
      exact hec
    subst hec
    replace htE : sE.trace = dE := by
      rw [hce] at htE
      simpa [initSt] using htE
    have hce2 : emergency_close o { pos := some p, ctr := 0, trace := [] }
        = (sE, Except.error e) := hce
    have hcc : checkConflict o a (initSt (some p)) = (sE, Except.error e) := by
      simp [checkConflict, initSt, hpa, hce2]
    have hbody : psBody o mi a (initSt (some p)) = (sE, Except.error e) := by
      simp [psBody, Mbind, hcc]
    have hrun : runPS o mi (sideSignal a) (some p) = psHandler o e sE := by
      rw [runPS, process_signal_eq]
      simp [Mcatch, hbody]
    cases e with
    | network =>
      constructor
      · rw [hrun]
        have : (psHandler o PyExc.network sE).1.trace = sE.trace := by
          simp [psHandler, Mraise]
        rw [this, noEntryOrders, htE]
        exact hallE
      · rw [hrun]
        simp [psHandler, Mraise]
    | insufficientFunds =>
      constructor
      · rw [hrun]
        have : (psHandler o PyExc.insufficientFunds sE).1.trace = sE.trace := by
          simp [psHandler, Mpure]
        rw [this, noEntryOrders, htE]
        exact hallE
      · rw [hrun]
        simp [psHandler, Mpure]
    | exchange =>
      obtain ⟨d2, ht2, _, _, hall2⟩ := opSpec_emergency_close
        (P := fun ev => !isEntry ev) (o := o)
        (fun _ => rfl) (fun _ => rfl) (fun _ _ _ => rfl) (fun _ => rfl) rfl sE
      rcases hec2 : emergency_close o sE with ⟨s9, r9⟩
      replace ht2 : s9.trace = sE.trace ++ d2 := by rw [hec2] at ht2; exact ht2
      cases r9 with
      | ok u =>
        constructor
        · rw [hrun]
          have : (psHandler o PyExc.exchange sE).1.trace = s9.trace := by
            simp [psHandler, hec2]
          rw [this, noEntryOrders, ht2, htE, List.all_append]
          simp [hallE, hall2]
        · rw [hrun]
          simp [psHandler, hec2]
      | error e2 =>
        constructor
        · rw [hrun]
          have : (psHandler o PyExc.exchange sE).1.trace = s9.trace := by
            simp [psHandler, hec2]
          rw [this, noEntryOrders, ht2, htE, List.all_append]
          simp [hallE, hall2]
        · rw [hrun]
          simp [psHandler, hec2]
    | valueError =>
      obtain ⟨d2, ht2, _, _, hall2⟩ := opSpec_emergency_close
        (P := fun ev => !isEntry ev) (o := o)
        (fun _ => rfl) (fun _ => rfl) (fun _ _ _ => rfl) (fun _ => rfl) rfl sE
      rcases hec2 : emergency_close o sE with ⟨s9, r9⟩
      replace ht2 : s9.trace = sE.trace ++ d2 := by rw [hec2] at ht2; exact ht2
      cases r9 with
      | ok u =>
        constructor
        · rw [hrun]
          have : (psHandler o PyExc.valueError sE).1.trace = s9.trace := by
            simp [psHandler, hec2]
          rw [this, noEntryOrders, ht2, htE, List.all_append]
          simp [hallE, hall2]
        · rw [hrun]
          simp [psHandler, hec2]
      | error e2 =>
        constructor
        · rw [hrun]
          have : (psHandler o PyExc.valueError sE).1.trace = s9.trace := by
            simp [psHandler, hec2]
          rw [this, noEntryOrders, ht2, htE, List.all_append]
          simp [hallE, hall2]
        · rw [hrun]
          simp [psHandler, hec2]

/-- Witness for the amended C3: holding `buy`, a `sell` signal whose
conflict close fails with an exchange error. -/
theorem C3_amended_failed_close_aborts_without_entry_witness :
    entrySafeFrom (some Side.buy)
      (runPS oracleC3 { amountStep := 1, minAmount := 1 } "sell" (some Side.buy)).1.trace
      = true
    ∧ (noEntryOrders (runPS oracleC3 { amountStep := 1, minAmount := 1 }
          (sideSignal Side.sell) (some Side.buy)).1.trace = true
       ∧ (runPS oracleC3 { amountStep := 1, minAmount := 1 }
            (sideSignal Side.sell) (some Side.buy)).2 ≠ Except.ok true) :=
  ⟨C3_amended_failed_close_aborts_without_entry.1 oracleC3
     { amountStep := 1, minAmount := 1 } "sell" (some Side.buy),
   C3_amended_failed_close_aborts_without_entry.2 oracleC3
     { amountStep := 1, minAmount := 1 } Side.buy Side.sell PyExc.exchange
     (by decide) (by with_unfolding_all decide)⟩

end Tradingbot
